import Mathlib

/-!
Verification of the rasterboy software rasterizer (Rust) against its
natural-language specification.  The Rust sources are shallowly embedded:
`f32` is modelled by the type `F` below — an exact rational together with the
IEEE special values `+inf`, `-inf` and `NaN`.  Arithmetic on finite values is
exact (rounding is not modelled; no claim settled here depends on rounding),
while the special values follow IEEE-754 semantics, which the rasterizer
relies on (NaN comparisons are false).  The sign of zero is not modelled.
`i32` and `usize` are modelled by `Int` and `Nat` with the saturating /
truncating conversions Rust performs on `as` casts from floats.
-/

namespace Rasterboy

/-- Model of a Rust `f32` value: an exact rational, or one of the IEEE
special values. -/
inductive F where
  | nan : F
  | pinf : F
  | ninf : F
  | fin : ℚ → F
deriving DecidableEq, Repr

/-- IEEE negation. -/
def F.neg : F → F
  | nan => nan
  | pinf => ninf
  | ninf => pinf
  | fin a => fin (-a)

/-- IEEE addition (exact on finite values): NaN propagates, `+inf + -inf = NaN`. -/
def F.add : F → F → F
  | nan, _ => nan
  | _, nan => nan
  | pinf, ninf => nan
  | pinf, _ => pinf
  | ninf, pinf => nan
  | ninf, _ => ninf
  | fin _, pinf => pinf
  | fin _, ninf => ninf
  | fin a, fin b => fin (a + b)

/-- IEEE subtraction. -/
def F.sub (a b : F) : F := a.add b.neg

/-- IEEE multiplication (exact on finite values): NaN propagates, `inf * 0 = NaN`. -/
def F.mul : F → F → F
  | nan, _ => nan
  | _, nan => nan
  | pinf, pinf => pinf
  | pinf, ninf => ninf
  | ninf, pinf => ninf
  | ninf, ninf => pinf
  | pinf, fin b => if 0 < b then pinf else if b < 0 then ninf else nan
  | ninf, fin b => if 0 < b then ninf else if b < 0 then pinf else nan
  | fin a, pinf => if 0 < a then pinf else if a < 0 then ninf else nan
  | fin a, ninf => if 0 < a then ninf else if a < 0 then pinf else nan
  | fin a, fin b => fin (a * b)

/-- IEEE division (exact on finite values): `0/0 = NaN`, `x/0 = ±inf` for
`x ≠ 0`, `x/inf = 0`, `inf/inf = NaN`.  (With the sign of zero unmodelled,
division by a zero carries the sign `+`.) -/
def F.div : F → F → F
  | nan, _ => nan
  | _, nan => nan
  | pinf, pinf => nan
  | pinf, ninf => nan
  | ninf, pinf => nan
  | ninf, ninf => nan
  | pinf, fin b => if b < 0 then ninf else pinf
  | ninf, fin b => if b < 0 then pinf else ninf
  | fin _, pinf => fin 0
  | fin _, ninf => fin 0
  | fin a, fin b =>
      if b = 0 then
        if a = 0 then nan else if 0 < a then pinf else ninf
      else fin (a / b)

/-- IEEE `<` as a Bool: false whenever either side is NaN. -/
def F.blt : F → F → Bool
  | nan, _ => false
  | _, nan => false
  | ninf, ninf => false
  | ninf, _ => true
  | _, ninf => false
  | pinf, _ => false
  | fin _, pinf => true
  | fin a, fin b => decide (a < b)

/-- IEEE `<=` as a Bool: false whenever either side is NaN. -/
def F.ble : F → F → Bool
  | nan, _ => false
  | _, nan => false
  | ninf, _ => true
  | _, ninf => false
  | pinf, pinf => true
  | pinf, _ => false
  | fin _, pinf => true
  | fin a, fin b => decide (a ≤ b)

/-- IEEE `==` as a Bool: false whenever either side is NaN. -/
def F.beq : F → F → Bool
  | fin a, fin b => decide (a = b)
  | pinf, pinf => true
  | ninf, ninf => true
  | _, _ => false

/-- Rust `f32::max`: if one operand is NaN the other is returned. -/
def F.fmax : F → F → F
  | nan, b => b
  | a, nan => a
  | a, b => if F.ble a b then b else a

/-- Rust `f32::abs`. -/
def F.fabs : F → F
  | nan => nan
  | pinf => pinf
  | ninf => pinf
  | fin a => if a < 0 then fin (-a) else fin a

/-- Rust `f32::clamp` (its exact branch structure: NaN falls through both
comparisons and is returned unchanged). -/
def F.clamp (x lo hi : F) : F :=
  if F.blt x lo then lo else if F.blt hi x then hi else x

/-- Truncation of a rational toward zero (the rounding Rust float-to-int
`as` casts use). -/
def ratTrunc (q : ℚ) : Int := if 0 ≤ q then Int.floor q else Int.ceil q

/-- Rust `f32::floor`. -/
def F.ffloor : F → F
  | nan => nan
  | pinf => pinf
  | ninf => ninf
  | fin a => fin (Int.floor a)

/-- Rust `f32::ceil`. -/
def F.fceil : F → F
  | nan => nan
  | pinf => pinf
  | ninf => ninf
  | fin a => fin (Int.ceil a)

/-- Round half away from zero on rationals (the rounding of `f32::round`). -/
def ratRoundHalfAway (q : ℚ) : Int :=
  if 0 ≤ q then Int.floor (q + 1 / 2) else Int.ceil (q - 1 / 2)

/-- Rust `f32::round`. -/
def F.fround : F → F
  | nan => nan
  | pinf => pinf
  | ninf => ninf
  | fin a => fin (ratRoundHalfAway a)

def i32Min : Int := -(2 ^ 31)

def i32Max : Int := 2 ^ 31 - 1

def usizeMax : Nat := 2 ^ 64 - 1

/-- Rust `as i32` on an `f32`: truncate toward zero, saturate at the `i32`
bounds, NaN to 0. -/
def F.toI32 : F → Int
  | nan => 0
  | pinf => i32Max
  | ninf => i32Min
  | fin a => max i32Min (min i32Max (ratTrunc a))

/-- Rust `as usize` on an `f32` (64-bit target): truncate toward zero,
saturate into `[0, usizeMax]`, NaN to 0. -/
def F.toUsize : F → Nat
  | nan => 0
  | pinf => usizeMax
  | ninf => 0
  | fin a => if a ≤ 0 then 0 else min usizeMax (ratTrunc a).toNat

/-- Rust `as u8` on an `f32`: truncate toward zero, saturate into
`[0, 255]`, NaN to 0. -/
def F.toU8 : F → Fin 256
  | nan => 0
  | pinf => 255
  | ninf => 0
  | fin a => if a ≤ 0 then 0 else ⟨min 255 (ratTrunc a).toNat, by omega⟩

/-- `f32::EPSILON` is exactly `2 ^ (-23)`. -/
def F.epsilon : F := fin (1 / 2 ^ 23)

/-- Exact square root on rationals whose numerator and denominator are perfect
squares — every argument any theorem in this file evaluates it at.  On other
arguments it yields an integer-square-root approximation, standing in for the
correctly rounded `f32::sqrt`, whose value is not representable in `ℚ`;
no statement below depends on those values. -/
def ratSqrt (q : ℚ) : ℚ := (Nat.sqrt q.num.toNat : ℚ) / (Nat.sqrt q.den : ℚ)

/-- Rust `f32::sqrt`: NaN on negative arguments. -/
def F.fsqrt : F → F
  | nan => nan
  | pinf => pinf
  | ninf => nan
  | fin a => if a < 0 then nan else fin (ratSqrt a)

def F.ofInt (i : Int) : F := fin i

def F.ofNat (n : Nat) : F := fin n

/-! ## `math.rs`: the vector / matrix / color types -/

/-- `math.rs`: `Vector3 { x, y, z: f32 }`. -/
structure Vector3 where
  x : F
  y : F
  z : F
deriving DecidableEq, Repr

/-- `math.rs`: `ScreenCoordinate { x, y: i32 }`. -/
structure ScreenCoordinate where
  x : Int
  y : Int
deriving DecidableEq, Repr

/-- `math.rs`: `Color { r, g, b: u8 }`. -/
structure Color where
  r : Fin 256
  g : Fin 256
  b : Fin 256
deriving DecidableEq, Repr

/-- `Color::default()` (derived): all channels 0. -/
def Color.default : Color := ⟨0, 0, 0⟩

/-- `Vector3::ORIGIN`, also `Vector3::default()`. -/
def Vector3.origin : Vector3 := ⟨F.fin 0, F.fin 0, F.fin 0⟩

def Vector3.add (a b : Vector3) : Vector3 :=
  ⟨F.add a.x b.x, F.add a.y b.y, F.add a.z b.z⟩

def Vector3.sub (a b : Vector3) : Vector3 :=
  ⟨F.sub a.x b.x, F.sub a.y b.y, F.sub a.z b.z⟩

/-- `impl ops::Mul for Vector3`: component-wise product. -/
def Vector3.mulV (a b : Vector3) : Vector3 :=
  ⟨F.mul a.x b.x, F.mul a.y b.y, F.mul a.z b.z⟩

/-- `impl ops::Mul<f32> for Vector3`: scalar product. -/
def Vector3.mulF (a : Vector3) (s : F) : Vector3 :=
  ⟨F.mul a.x s, F.mul a.y s, F.mul a.z s⟩

def Vector3.dot (a b : Vector3) : F :=
  F.add (F.add (F.mul a.x b.x) (F.mul a.y b.y)) (F.mul a.z b.z)

def Vector3.cross (a b : Vector3) : Vector3 :=
  ⟨F.sub (F.mul a.y b.z) (F.mul a.z b.y),
   F.sub (F.mul a.z b.x) (F.mul a.x b.z),
   F.sub (F.mul a.x b.y) (F.mul a.y b.x)⟩

/-- `Vector3::magnitude`: `(x*x + y*y + z*z).sqrt()`. -/
def Vector3.magnitude (v : Vector3) : F :=
  F.fsqrt (F.add (F.add (F.mul v.x v.x) (F.mul v.y v.y)) (F.mul v.z v.z))

/-- `Vector3::normalized`: the origin when `mag.abs() <= f32::EPSILON`,
otherwise the components divided by the magnitude. -/
def Vector3.normalized (v : Vector3) : Vector3 :=
  let mag := v.magnitude
  if F.ble mag.fabs F.epsilon then Vector3.origin
  else ⟨F.div v.x mag, F.div v.y mag, F.div v.z mag⟩

/-- `Vector3::ndc_to_pixel`: `as i32` casts of
`(x+1)*0.5*W` and `(1-y)*0.5*H` (truncations toward zero, not floors). -/
def Vector3.ndc_to_pixel (v : Vector3) (screen_width screen_height : Int) :
    ScreenCoordinate :=
  ⟨F.toI32 (F.mul (F.mul (F.add v.x (F.fin 1)) (F.fin (1 / 2))) (F.ofInt screen_width)),
   F.toI32 (F.mul (F.mul (F.sub (F.fin 1) v.y) (F.fin (1 / 2))) (F.ofInt screen_height))⟩

/-- `Vector3::to_color`: each channel clamped to `[0,1]`, times 255,
cast `as u8`. -/
def Vector3.to_color (v : Vector3) : Color :=
  ⟨F.toU8 (F.mul (F.clamp v.x (F.fin 0) (F.fin 1)) (F.fin 255)),
   F.toU8 (F.mul (F.clamp v.y (F.fin 0) (F.fin 1)) (F.fin 255)),
   F.toU8 (F.mul (F.clamp v.z (F.fin 0) (F.fin 1)) (F.fin 255))⟩

/-- `Color::to_vector3`: each channel divided by 255. -/
def Color.to_vector3 (c : Color) : Vector3 :=
  ⟨F.fin ((c.r : ℚ) / 255), F.fin ((c.g : ℚ) / 255), F.fin ((c.b : ℚ) / 255)⟩

/-- `math.rs`: `Mat4 { data: [f32; 16] }`.  `at(col, row)` reads
`data[row * 4 + col]`. -/
structure Mat4 where
  data : List F
deriving DecidableEq, Repr

/-- `Mat4::at(col, row)`. -/
def Mat4.at (m : Mat4) (col row : Nat) : F := m.data.getD (row * 4 + col) (F.fin 0)

/-- `Mat4::identity()`. -/
def Mat4.identity : Mat4 :=
  ⟨[F.fin 1, F.fin 0, F.fin 0, F.fin 0,
    F.fin 0, F.fin 1, F.fin 0, F.fin 0,
    F.fin 0, F.fin 0, F.fin 1, F.fin 0,
    F.fin 0, F.fin 0, F.fin 0, F.fin 1]⟩

/-- `Mat4::scale(x, y, z)`: diagonal `(x, y, z, 1)`. -/
def Mat4.scale (x y z : F) : Mat4 :=
  ⟨[x,       F.fin 0, F.fin 0, F.fin 0,
    F.fin 0, y,       F.fin 0, F.fin 0,
    F.fin 0, F.fin 0, z,       F.fin 0,
    F.fin 0, F.fin 0, F.fin 0, F.fin 1]⟩

/-- `Mat4::transpose`: `ret.at(i, j) = self.at(j, i)`, i.e.
`data'[j*4+i] = data[i*4+j]`. -/
def Mat4.transpose (m : Mat4) : Mat4 :=
  ⟨(List.range 16).map fun idx => m.data.getD ((idx % 4) * 4 + idx / 4) (F.fin 0)⟩

/-- `math.rs`: `Mat3 { data: [f32; 9] }`. -/
structure Mat3 where
  data : List F
deriving DecidableEq, Repr

/-- `Mat3::default()` (derived `Default`): the all-zero matrix
(note: `Mat4::default()` is the identity via a manual impl, but `Mat3`
derives `Default`, so its default is zero). -/
def Mat3.default : Mat3 := ⟨List.replicate 9 (F.fin 0)⟩

/-- `Mat3::at(col, row)`. -/
def Mat3.at (m : Mat3) (col row : Nat) : F := m.data.getD (row * 3 + col) (F.fin 0)

/-- `impl From<Mat4> for Mat3`: the upper-left 3×3
(`data3[i*3+j] = data4[i*4+j]`). -/
def Mat3.ofMat4 (m : Mat4) : Mat3 :=
  ⟨(List.range 9).map fun idx => m.data.getD ((idx / 3) * 4 + idx % 3) (F.fin 0)⟩

/-- Sum of a list of `f32` the way `Iterator::sum` folds: from `0.0`, left
to right. -/
def fsum (l : List F) : F := l.foldl F.add (F.fin 0)

/-- `impl ops::Mul for Mat4`:
`c.at(j, i) = sum over k of self.at(k, i) * rhs.at(j, k)`. -/
def Mat4.mul (m rhs : Mat4) : Mat4 :=
  ⟨(List.range 16).map fun idx =>
    fsum ((List.range 4).map fun k => F.mul (m.at k (idx / 4)) (rhs.at (idx % 4) k))⟩

/-- `impl ops::Mul<Vector3> for Mat4`: promote to `(x, y, z, 1)`, multiply,
divide `x/y/z` by the resulting `w`. -/
def Mat4.mulVec (m : Mat4) (rhs : Vector3) : Vector3 :=
  let v := fun (i : Nat) =>
    fsum [F.mul (m.at 0 i) rhs.x, F.mul (m.at 1 i) rhs.y,
          F.mul (m.at 2 i) rhs.z, F.mul (m.at 3 i) (F.fin 1)]
  ⟨F.div (v 0) (v 3), F.div (v 1) (v 3), F.div (v 2) (v 3)⟩

/-- The 16 cofactor entries `ret.data[0..16]` of `Mat4::inverse`
("adapted from GLU"), term for term and in the source's association order
(`F.sub x t` is `x + (-t)`). -/
def Mat4.cofactorData (m : Mat4) : List F :=
  let d := fun (i : Nat) => m.data.getD i (F.fin 0)
  let c0 := (F.sub (F.add (F.add (F.sub (F.sub (F.mul (F.mul (d 5) (d 10)) (d 15)) (F.mul (F.mul (d 5) (d 11)) (d 14))) (F.mul (F.mul (d 9) (d 6)) (d 15))) (F.mul (F.mul (d 9) (d 7)) (d 14))) (F.mul (F.mul (d 13) (d 6)) (d 11))) (F.mul (F.mul (d 13) (d 7)) (d 10)))
  let c1 := (F.add (F.sub (F.sub (F.add (F.add (F.mul (F.mul (F.neg (d 1)) (d 10)) (d 15)) (F.mul (F.mul (d 1) (d 11)) (d 14))) (F.mul (F.mul (d 9) (d 2)) (d 15))) (F.mul (F.mul (d 9) (d 3)) (d 14))) (F.mul (F.mul (d 13) (d 2)) (d 11))) (F.mul (F.mul (d 13) (d 3)) (d 10)))
  let c2 := (F.sub (F.add (F.add (F.sub (F.sub (F.mul (F.mul (d 1) (d 6)) (d 15)) (F.mul (F.mul (d 1) (d 7)) (d 14))) (F.mul (F.mul (d 5) (d 2)) (d 15))) (F.mul (F.mul (d 5) (d 3)) (d 14))) (F.mul (F.mul (d 13) (d 2)) (d 7))) (F.mul (F.mul (d 13) (d 3)) (d 6)))
  let c3 := (F.add (F.sub (F.sub (F.add (F.add (F.mul (F.mul (F.neg (d 1)) (d 6)) (d 11)) (F.mul (F.mul (d 1) (d 7)) (d 10))) (F.mul (F.mul (d 5) (d 2)) (d 11))) (F.mul (F.mul (d 5) (d 3)) (d 10))) (F.mul (F.mul (d 9) (d 2)) (d 7))) (F.mul (F.mul (d 9) (d 3)) (d 6)))
  let c4 := (F.add (F.sub (F.sub (F.add (F.add (F.mul (F.mul (F.neg (d 4)) (d 10)) (d 15)) (F.mul (F.mul (d 4) (d 11)) (d 14))) (F.mul (F.mul (d 8) (d 6)) (d 15))) (F.mul (F.mul (d 8) (d 7)) (d 14))) (F.mul (F.mul (d 12) (d 6)) (d 11))) (F.mul (F.mul (d 12) (d 7)) (d 10)))
  let c5 := (F.sub (F.add (F.add (F.sub (F.sub (F.mul (F.mul (d 0) (d 10)) (d 15)) (F.mul (F.mul (d 0) (d 11)) (d 14))) (F.mul (F.mul (d 8) (d 2)) (d 15))) (F.mul (F.mul (d 8) (d 3)) (d 14))) (F.mul (F.mul (d 12) (d 2)) (d 11))) (F.mul (F.mul (d 12) (d 3)) (d 10)))
  let c6 := (F.add (F.sub (F.sub (F.add (F.add (F.mul (F.mul (F.neg (d 0)) (d 6)) (d 15)) (F.mul (F.mul (d 0) (d 7)) (d 14))) (F.mul (F.mul (d 4) (d 2)) (d 15))) (F.mul (F.mul (d 4) (d 3)) (d 14))) (F.mul (F.mul (d 12) (d 2)) (d 7))) (F.mul (F.mul (d 12) (d 3)) (d 6)))
  let c7 := (F.sub (F.add (F.add (F.sub (F.sub (F.mul (F.mul (d 0) (d 6)) (d 11)) (F.mul (F.mul (d 0) (d 7)) (d 10))) (F.mul (F.mul (d 4) (d 2)) (d 11))) (F.mul (F.mul (d 4) (d 3)) (d 10))) (F.mul (F.mul (d 8) (d 2)) (d 7))) (F.mul (F.mul (d 8) (d 3)) (d 6)))
  let c8 := (F.sub (F.add (F.add (F.sub (F.sub (F.mul (F.mul (d 4) (d 9)) (d 15)) (F.mul (F.mul (d 4) (d 11)) (d 13))) (F.mul (F.mul (d 8) (d 5)) (d 15))) (F.mul (F.mul (d 8) (d 7)) (d 13))) (F.mul (F.mul (d 12) (d 5)) (d 11))) (F.mul (F.mul (d 12) (d 7)) (d 9)))
  let c9 := (F.add (F.sub (F.sub (F.add (F.add (F.mul (F.mul (F.neg (d 0)) (d 9)) (d 15)) (F.mul (F.mul (d 0) (d 11)) (d 13))) (F.mul (F.mul (d 8) (d 1)) (d 15))) (F.mul (F.mul (d 8) (d 3)) (d 13))) (F.mul (F.mul (d 12) (d 1)) (d 11))) (F.mul (F.mul (d 12) (d 3)) (d 9)))
  let c10 := (F.sub (F.add (F.add (F.sub (F.sub (F.mul (F.mul (d 0) (d 5)) (d 15)) (F.mul (F.mul (d 0) (d 7)) (d 13))) (F.mul (F.mul (d 4) (d 1)) (d 15))) (F.mul (F.mul (d 4) (d 3)) (d 13))) (F.mul (F.mul (d 12) (d 1)) (d 7))) (F.mul (F.mul (d 12) (d 3)) (d 5)))
  let c11 := (F.add (F.sub (F.sub (F.add (F.add (F.mul (F.mul (F.neg (d 0)) (d 5)) (d 11)) (F.mul (F.mul (d 0) (d 7)) (d 9))) (F.mul (F.mul (d 4) (d 1)) (d 11))) (F.mul (F.mul (d 4) (d 3)) (d 9))) (F.mul (F.mul (d 8) (d 1)) (d 7))) (F.mul (F.mul (d 8) (d 3)) (d 5)))
  let c12 := (F.add (F.sub (F.sub (F.add (F.add (F.mul (F.mul (F.neg (d 4)) (d 9)) (d 14)) (F.mul (F.mul (d 4) (d 10)) (d 13))) (F.mul (F.mul (d 8) (d 5)) (d 14))) (F.mul (F.mul (d 8) (d 6)) (d 13))) (F.mul (F.mul (d 12) (d 5)) (d 10))) (F.mul (F.mul (d 12) (d 6)) (d 9)))
  let c13 := (F.sub (F.add (F.add (F.sub (F.sub (F.mul (F.mul (d 0) (d 9)) (d 14)) (F.mul (F.mul (d 0) (d 10)) (d 13))) (F.mul (F.mul (d 8) (d 1)) (d 14))) (F.mul (F.mul (d 8) (d 2)) (d 13))) (F.mul (F.mul (d 12) (d 1)) (d 10))) (F.mul (F.mul (d 12) (d 2)) (d 9)))
  let c14 := (F.add (F.sub (F.sub (F.add (F.add (F.mul (F.mul (F.neg (d 0)) (d 5)) (d 14)) (F.mul (F.mul (d 0) (d 6)) (d 13))) (F.mul (F.mul (d 4) (d 1)) (d 14))) (F.mul (F.mul (d 4) (d 2)) (d 13))) (F.mul (F.mul (d 12) (d 1)) (d 6))) (F.mul (F.mul (d 12) (d 2)) (d 5)))
  let c15 := (F.sub (F.add (F.add (F.sub (F.sub (F.mul (F.mul (d 0) (d 5)) (d 10)) (F.mul (F.mul (d 0) (d 6)) (d 9))) (F.mul (F.mul (d 4) (d 1)) (d 10))) (F.mul (F.mul (d 4) (d 2)) (d 9))) (F.mul (F.mul (d 8) (d 1)) (d 6))) (F.mul (F.mul (d 8) (d 2)) (d 5)))
  [c0, c1, c2, c3, c4, c5, c6, c7, c8, c9, c10, c11, c12, c13, c14, c15]

/-- The determinant `Mat4::inverse` computes: the Laplace expansion
`d0*c0 + d1*c4 + d2*c8 + d3*c12` over the cofactor entries. -/
def Mat4.detComputed (m : Mat4) : F :=
  let d := fun (i : Nat) => m.data.getD i (F.fin 0)
  let c := fun (i : Nat) => m.cofactorData.getD i (F.fin 0)
  F.add (F.add (F.add (F.mul (d 0) (c 0)) (F.mul (d 1) (c 4))) (F.mul (d 2) (c 8)))
    (F.mul (d 3) (c 12))

/-- `Mat4::inverse`: `None` when the computed determinant compares `== 0.0`,
otherwise every cofactor entry multiplied by the reciprocal of the
determinant. -/
def Mat4.inverse (m : Mat4) : Option Mat4 :=
  if F.beq m.detComputed (F.fin 0) then none
  else some ⟨m.cofactorData.map fun cval => F.mul cval (F.div (F.fin 1) m.detComputed)⟩

/-- `impl ops::Mul<Vector3> for Mat3`. -/
def Mat3.mulVec (m : Mat3) (rhs : Vector3) : Vector3 :=
  ⟨fsum [F.mul (m.at 0 0) rhs.x, F.mul (m.at 1 0) rhs.y, F.mul (m.at 2 0) rhs.z],
   fsum [F.mul (m.at 0 1) rhs.x, F.mul (m.at 1 1) rhs.y, F.mul (m.at 2 1) rhs.z],
   fsum [F.mul (m.at 0 2) rhs.x, F.mul (m.at 1 2) rhs.y, F.mul (m.at 2 2) rhs.z]⟩

/-! ## `image.rs`: pixel buffer, samplers, PPM codec

The PPM file content is modelled as its list of lines (what Rust's
`BufReader::lines()` yields: the text split at newlines, with no entry for
the terminating newline). -/

/-- `image.rs`: `Image { data, width, height }`. -/
structure Image where
  data : List Color
  width : Nat
  height : Nat
deriving DecidableEq, Repr

def Image.maxX (img : Image) : Nat := img.width - 1

def Image.maxY (img : Image) : Nat := img.height - 1

/-- `sample_bilinear`: `((u * max_x as f32).floor() as usize).clamp(0, max_x)`
(for `usize`, `clamp(0, max_x)` is `min _ max_x`). -/
def Image.x_low_idx (img : Image) (u : F) : Nat :=
  min (F.toUsize (F.ffloor (F.mul u (F.ofNat img.maxX)))) img.maxX

def Image.x_high_idx (img : Image) (u : F) : Nat :=
  min (F.toUsize (F.fceil (F.mul u (F.ofNat img.maxX)))) img.maxX

/-- The `y` indices use the flipped coordinate `v' = 1 - v`. -/
def Image.y_low_idx (img : Image) (v : F) : Nat :=
  min (F.toUsize (F.ffloor (F.mul (F.sub (F.fin 1) v) (F.ofNat img.maxY)))) img.maxY

def Image.y_high_idx (img : Image) (v : F) : Nat :=
  min (F.toUsize (F.fceil (F.mul (F.sub (F.fin 1) v) (F.ofNat img.maxY)))) img.maxY

/-- `sample_nearest_neighbor`: `((u * max_x as f32).round() as usize).clamp(0, max_x)`. -/
def Image.nearest_x_idx (img : Image) (u : F) : Nat :=
  min (F.toUsize (F.fround (F.mul u (F.ofNat img.maxX)))) img.maxX

def Image.nearest_y_idx (img : Image) (v : F) : Nat :=
  min (F.toUsize (F.fround (F.mul (F.sub (F.fin 1) v) (F.ofNat img.maxY)))) img.maxY

/-- `Image::sample_bilinear`.  The four texel reads (`self.data[...]` in the
source, which panics when out of range) are modelled with a total `getD`;
the indices are proved in range for every well-formed image. -/
def Image.sample_bilinear (img : Image) (u v : F) : Color :=
  let vv := F.sub (F.fin 1) v
  let x_low_idx := img.x_low_idx u
  let x_high_idx := img.x_high_idx u
  let y_low_idx := img.y_low_idx v
  let y_high_idx := img.y_high_idx v
  let x1 := F.sub (F.div (F.ofNat x_low_idx) (F.ofNat img.maxX)) F.epsilon
  let x2 := F.add (F.div (F.ofNat x_high_idx) (F.ofNat img.maxX)) F.epsilon
  let y1 := F.sub (F.div (F.ofNat y_low_idx) (F.ofNat img.maxY)) F.epsilon
  let y2 := F.add (F.div (F.ofNat y_high_idx) (F.ofNat img.maxY)) F.epsilon
  let q11 := (img.data.getD (y_low_idx * img.width + x_low_idx) Color.default).to_vector3
  let q21 := (img.data.getD (y_low_idx * img.width + x_high_idx) Color.default).to_vector3
  let q12 := (img.data.getD (y_high_idx * img.width + x_low_idx) Color.default).to_vector3
  let q22 := (img.data.getD (y_high_idx * img.width + x_high_idx) Color.default).to_vector3
  let range := F.mul (F.sub x2 x1) (F.sub y2 y1)
  let temp1 := F.div (F.sub x2 u) range
  let temp2 := F.div (F.sub u x1) range
  let temp3 := Vector3.add (Vector3.mulF q11 temp1) (Vector3.mulF q21 temp2)
  let temp4 := Vector3.add (Vector3.mulF q12 temp1) (Vector3.mulF q22 temp2)
  (Vector3.add (Vector3.mulF temp3 (F.sub y2 vv)) (Vector3.mulF temp4 (F.sub vv y1))).to_color

/-- `Image::sample_nearest_neighbor`. -/
def Image.sample_nearest_neighbor (img : Image) (u v : F) : Color :=
  img.data.getD (img.nearest_y_idx v * img.width + img.nearest_x_idx u) Color.default

/-- Modelled from the spec: `Image::sample`, the method the rasterizer's
textured branch calls (`rasterizer.rs` line 140); no definition of it is
among the repository files under `src/`.  Spec §4.5 step 13 says "sample the
texture bilinearly", so it is modelled as `sample_bilinear`. -/
def Image.sample (img : Image) (u v : F) : Color := img.sample_bilinear u v

/-- Rust `str::split_whitespace`. -/
def splitWhitespace (s : String) : List String :=
  (s.split fun c => c.isWhitespace).filter fun t => t ≠ ""

/-- `str::parse::<usize>` (the optional leading `+` Rust accepts is not
modelled; no string the codec sees carries one). -/
def parseUsize (s : String) : Option Nat := s.toNat?

/-- `str::parse::<f32>`, modelled exactly for plain decimal numerals
(optional sign, digits, optional fraction); exponent forms and the
`inf` / `NaN` spellings are not modelled. -/
def parseF32 (s : String) : Option F :=
  let core := fun (t : String) =>
    match t.splitOn "." with
    | [i] => (i.toNat?).map fun n => F.fin n
    | [i, f] =>
        match i.toNat?, f.toNat? with
        | some ni, some nf => some (F.fin ((ni : ℚ) + (nf : ℚ) / 10 ^ f.length))
        | _, _ => none
    | _ => none
  if s.startsWith "-" then (core (s.drop 1)).map F.neg
  else if s.startsWith "+" then core (s.drop 1)
  else core s

/-- `slice::chunks(3)` on a list whose length the loader has to be a multiple
of three: `none` exactly when `len % 3 ≠ 0` (the case the loader rejects). -/
def chunk3 {α : Type} : List α → Option (List (α × α × α))
  | [] => some []
  | a :: b :: c :: rest => (chunk3 rest).map fun l => (a, b, c) :: l
  | _ => none

/-- One pixel of `load_ppm`'s fill loop:
`data[idx].{r,g,b} = ((chan.parse::<f32>()? / max_value) * 255.0) as u8`.
A parse failure is the propagated `Err`; writing past `data.len()` is the
Rust panic, modelled as an error outcome. -/
def storePixel (max_value : F) (st : List Color × Nat) (t : String × String × String) :
    Except String (List Color × Nat) :=
  match parseF32 t.1, parseF32 t.2.1, parseF32 t.2.2 with
  | some r, some g, some b =>
      if st.2 < st.1.length then
        Except.ok (st.1.set st.2
          ⟨F.toU8 (F.mul (F.div r max_value) (F.fin 255)),
           F.toU8 (F.mul (F.div g max_value) (F.fin 255)),
           F.toU8 (F.mul (F.div b max_value) (F.fin 255))⟩, st.2 + 1)
      else Except.error "index out of bounds"
  | _, _, _ => Except.error "parse error"

/-- One body line of `load_ppm`. -/
def loadLine (max_value : F) (st : List Color × Nat) (line : String) :
    Except String (List Color × Nat) :=
  match chunk3 (splitWhitespace line) with
  | none => Except.error
      "the number of values in the PPM file is not a multiple of three (cannot create colors)"
  | some triples => triples.foldlM (storePixel max_value) st

/-- `Image::load_ppm`, on the file's lines: first line must equal `P3`
exactly, second line the two sizes, third line the max channel value, then
the pixel data. -/
def Image.load_ppm (ls : List String) : Except String Image :=
  match ls with
  | [] => Except.error "PPM file did not contain header"
  | l0 :: rest =>
    if l0 ≠ "P3" then Except.error "PPM File was not in P3 Format"
    else
      match rest with
      | [] => Except.error "PPM file did not contain header"
      | size_line :: rest2 =>
        match rest2 with
        | [] => Except.error "PPM file did not contain header"
        | max_val_line :: body =>
          let split_size_line := splitWhitespace size_line
          if split_size_line.length ≠ 2 then
            Except.error "PPM File did not contain two numbers to define size in the header"
          else
            match parseUsize (split_size_line.getD 0 ""),
                  parseUsize (split_size_line.getD 1 ""),
                  parseF32 max_val_line.trim with
            | some width, some height, some max_value =>
                (body.foldlM (loadLine max_value)
                    (List.replicate (width * height) Color.default, 0)).map
                  fun st => ⟨st.1, width, height⟩
            | _, _, _ => Except.error "parse error"

/-- `Image::save_to_ppm`, as the lines of the file it writes: the header
`format!("P3 {} {}\n255\n", width, height)` — note `P3`, width and height
share the FIRST line — then one `"r g b"` line per pixel in buffer order. -/
def Image.save_to_ppm (img : Image) : List String :=
  ("P3 " ++ toString img.width ++ " " ++ toString img.height) :: "255" ::
    img.data.map fun p =>
      toString p.r.val ++ " " ++ toString p.g.val ++ " " ++ toString p.b.val

/-! ## `mesh.rs` / `scene.rs`: the data the rasterizer consumes -/

/-- `mesh.rs`: `Triangle`, nine indices. -/
structure Triangle where
  a : Nat
  b : Nat
  c : Nat
  a_normal : Nat
  b_normal : Nat
  c_normal : Nat
  a_texture : Nat
  b_texture : Nat
  c_texture : Nat
deriving DecidableEq, Repr

/-- `mesh.rs`: `Mesh`.  Index accesses into the vertex arrays (which panic in
Rust when out of range) are modelled with a total `getD`: the spec makes
in-range indices a loader invariant the core may assume. -/
structure Mesh where
  verticies : List Vector3
  face_indicies : List Triangle
  vertex_normals : List Vector3
  vertex_texture_coords : List Vector3
  texture : Option Image

/-- `scene.rs`: `Camera`. -/
structure Camera where
  near_plane : F
  far_plane : F
  canvas_width : Int
  canvas_height : Int
  view_mat : Mat4
  projection_mat : Mat4

/-- `scene.rs`: `Light`. -/
structure Light where
  position : Vector3
  color : Color
  ambient_strength : F

/-! ## `rasterizer.rs` -/

/-- `triangle_edge` before its final `as f32` cast (the arithmetic is `i32`;
overflow, which cannot occur for on-canvas coordinates, is not modelled). -/
def triangle_edge_int (point v0 v1 : ScreenCoordinate) : Int :=
  (point.x - v0.x) * (v0.y - v1.y) - (point.y - v0.y) * (v0.x - v1.x)

/-- `rasterizer.rs`: `triangle_edge` (returns `f32`). -/
def triangle_edge (point v0 v1 : ScreenCoordinate) : F :=
  F.fin (triangle_edge_int point v0 v1)

/-- `rasterizer.rs`: `is_on_screen`. -/
def is_on_screen (point : Vector3) (near far : F) : Bool :=
  F.blt near point.z && F.blt point.z far &&
  F.ble (F.fin (-1)) point.x && F.ble point.x (F.fin 1) &&
  F.ble (F.fin (-1)) point.y && F.ble point.y (F.fin 1)

/-- The "top or left edge" predicate of the coverage test:
`(edge.y == 0.0 && edge.x > 0.0) || edge.y > 0.0`. -/
def topLeftRule (e : Vector3) : Bool :=
  (F.beq e.y (F.fin 0) && F.blt (F.fin 0) e.x) || F.blt (F.fin 0) e.y

/-- The per-sample coverage test of `draw_mesh` (lines 104–110), verbatim:
for each edge `k`, `(w_k == 0.0 && top-left(edge_k)) || w_k >= 0.0`. -/
def insideCoverage (w0 w1 w2 : F) (e0 e1 e2 : Vector3) : Bool :=
  ((F.beq w0 (F.fin 0) && topLeftRule e0) || F.ble (F.fin 0) w0) &&
  ((F.beq w1 (F.fin 0) && topLeftRule e1) || F.ble (F.fin 0) w1) &&
  ((F.beq w2 (F.fin 0) && topLeftRule e2) || F.ble (F.fin 0) w2)

/-- `draw_mesh`'s normal-transform setup: the inverse-transpose of the model
matrix as a 3×3, or `Mat3::default()` — the ZERO matrix (the derived
`Default` for `Mat3`) — when the model matrix is singular. -/
def normalMatrix (transform : Mat4) : Mat3 :=
  match transform.inverse with
  | some inv => Mat3.ofMat4 inv.transpose
  | none => Mat3.default

/-- The per-vertex normal `draw_mesh` feeds into lighting:
`(inverse_transform * mesh.vertex_normals[i]).normalized()`. -/
def usedNormal (transform : Mat4) (n : Vector3) : Vector3 :=
  ((normalMatrix transform).mulVec n).normalized

/-- The `phong_lighting` closure in `draw_mesh`. -/
def phong_lighting (light : Light) (vertex normal : Vector3) : Vector3 :=
  let v_to_light := (Vector3.sub light.position vertex).normalized
  let color := light.color.to_vector3
  Vector3.add (Vector3.mulF color (F.fmax (Vector3.dot normal v_to_light) (F.fin 0)))
    (Vector3.mulF color light.ambient_strength)

/-- The fold of `phong_lighting` over the lights (`map` then `fold` from
`Vector3::default()`). -/
def vertexLitColor (lights : List Light) (vertex normal : Vector3) : Vector3 :=
  (lights.map fun light => phong_lighting light vertex normal).foldl
    Vector3.add Vector3.origin

/-- `transform * mesh.verticies[i]`. -/
def worldVert (transform : Mat4) (mesh : Mesh) (i : Nat) : Vector3 :=
  transform.mulVec (mesh.verticies.getD i Vector3.origin)

/-- `camera.projection_mat * camera.view_mat * world_to_v` (left associated:
the matrix product first, then the point transform with its homogeneous
divide). -/
def ndcVertRaw (camera : Camera) (transform : Mat4) (mesh : Mesh) (i : Nat) : Vector3 :=
  (camera.projection_mat.mul camera.view_mat).mulVec (worldVert transform mesh i)

/-- `ndc_v.ndc_to_pixel(camera.canvas_width, camera.canvas_height)`. -/
def pixelVert (camera : Camera) (transform : Mat4) (mesh : Mesh) (i : Nat) :
    ScreenCoordinate :=
  (ndcVertRaw camera transform mesh i).ndc_to_pixel camera.canvas_width camera.canvas_height

/-- The signed pixel-space area `triangle_edge(pixel_v2, pixel_v0, pixel_v1)`
of a triangle, as the exact integer. -/
def triAreaInt (camera : Camera) (transform : Mat4) (mesh : Mesh) (t : Triangle) : Int :=
  triangle_edge_int (pixelVert camera transform mesh t.c)
    (pixelVert camera transform mesh t.a) (pixelVert camera transform mesh t.b)

/-- The integers of a Rust `a..b` range, in order. -/
def intRange (a b : Int) : List Int :=
  (List.range (b - a).toNat).map fun (n : Nat) => a + (n : Int)

/-- Rust `i32` wrap-around: the release-profile overflow semantics of `i32`
arithmetic (a debug build panics on the overflow instead; in this model the
wrapped value then fails the bounds check of the access it feeds, so both
profiles end in `none`). -/
def wrap32 (n : Int) : Int := (n + 2 ^ 31) % 2 ^ 32 - 2 ^ 31

/-- `as usize` on an `i32` (64-bit target): sign-extend to 64 bits and
reinterpret, so a negative `i32` becomes a value of at least `2^64 - 2^31`. -/
def i32ToUsize (n : Int) : Nat := (n % 2 ^ 64).toNat

/-- The buffer index `((y * camera.canvas_width) + x) as usize` of
`draw_mesh`: the multiplication and the addition are `i32` operations, so
each wraps on overflow before the `usize` cast. -/
def buffIdx (canvasW x y : Int) : Nat := i32ToUsize (wrap32 (wrap32 (y * canvasW) + x))

/-- Checked read `l[i]` at a `usize` index: `none` is the Rust
index-out-of-bounds panic. -/
def listGetU? {α : Type} (l : List α) (i : Nat) : Option α :=
  if h : i < l.length then some (l.get ⟨i, h⟩) else none

/-- Checked write `l[i] = a`; `none` is the Rust panic. -/
def listSetU? {α : Type} (l : List α) (i : Nat) (a : α) : Option (List α) :=
  if i < l.length then some (l.set i a) else none

/-- `depth = 1.0 / (ndc_v0.z * w0 + ndc_v1.z * w1 + ndc_v2.z * w2)` (the
`z`s here are the reciprocal depths). -/
def barycentricDepth (z0 z1 z2 w0 w1 w2 : F) : F :=
  F.div (F.fin 1) (F.add (F.add (F.mul z0 w0) (F.mul z1 w1)) (F.mul z2 w2))

/-- `lighting_color = (c0 * w0 + c1 * w1 + c2 * w2) * depth`. -/
def interpolatedColor (c0 c1 c2 : Vector3) (w0 w1 w2 depth : F) : Vector3 :=
  Vector3.mulF
    (Vector3.add (Vector3.add (Vector3.mulF c0 w0) (Vector3.mulF c1 w1))
      (Vector3.mulF c2 w2)) depth

/-- The color value written to the pixel buffer: the textured branch
(perspective-correct uv, bilinear texture sample, modulated by the lighting)
when the mesh has a texture, otherwise the lit color alone. -/
def shadedPixelColor (mesh : Mesh) (t : Triangle) (z0 z1 z2 w0 w1 w2 depth : F)
    (lighting : Vector3) : Color :=
  match mesh.texture with
  | some tex =>
      let v0tc := Vector3.mulF (mesh.vertex_texture_coords.getD t.a_texture Vector3.origin) z0
      let v1tc := Vector3.mulF (mesh.vertex_texture_coords.getD t.b_texture Vector3.origin) z1
      let v2tc := Vector3.mulF (mesh.vertex_texture_coords.getD t.c_texture Vector3.origin) z2
      let object_uv := Vector3.mulF
        (Vector3.add (Vector3.add (Vector3.mulF v0tc w0) (Vector3.mulF v1tc w1))
          (Vector3.mulF v2tc w2)) depth
      (Vector3.mulV ((tex.sample object_uv.x object_uv.y).to_vector3) lighting).to_color
  | none => lighting.to_color

/-- The coverage test of the sample `(x, y)`: the three edge functions
`w0 = edge(P, p1, p2)`, `w1 = edge(P, p2, p0)`, `w2 = edge(P, p0, p1)` fed
into the inside test with the NDC edge vectors `n2-n1`, `n0-n2`, `n1-n0`. -/
def sampleCovered (ndc0 ndc1 ndc2 : Vector3) (pv0 pv1 pv2 : ScreenCoordinate)
    (x y : Int) : Bool :=
  insideCoverage (triangle_edge ⟨x, y⟩ pv1 pv2) (triangle_edge ⟨x, y⟩ pv2 pv0)
    (triangle_edge ⟨x, y⟩ pv0 pv1) (Vector3.sub ndc2 ndc1) (Vector3.sub ndc0 ndc2)
    (Vector3.sub ndc1 ndc0)

/-- The recovered depth of the sample `(x, y)`: the reciprocal of the
barycentric interpolation of the reciprocal depths, after dividing each
edge weight by the area (`w_k /= area`). -/
def sampleDepth (ndc0 ndc1 ndc2 : Vector3) (pv0 pv1 pv2 : ScreenCoordinate)
    (area : F) (x y : Int) : F :=
  barycentricDepth ndc0.z ndc1.z ndc2.z
    (F.div (triangle_edge ⟨x, y⟩ pv1 pv2) area)
    (F.div (triangle_edge ⟨x, y⟩ pv2 pv0) area)
    (F.div (triangle_edge ⟨x, y⟩ pv0 pv1) area)

/-- The shaded color written for the sample `(x, y)`: the interpolated
premultiplied lit colors times the recovered depth, modulated by the
bilinear texture sample when the mesh is textured. -/
def sampleColor (mesh : Mesh) (t : Triangle) (ndc0 ndc1 ndc2 c0 c1 c2 : Vector3)
    (pv0 pv1 pv2 : ScreenCoordinate) (area : F) (x y : Int) : Color :=
  shadedPixelColor mesh t ndc0.z ndc1.z ndc2.z
    (F.div (triangle_edge ⟨x, y⟩ pv1 pv2) area)
    (F.div (triangle_edge ⟨x, y⟩ pv2 pv0) area)
    (F.div (triangle_edge ⟨x, y⟩ pv0 pv1) area)
    (sampleDepth ndc0 ndc1 ndc2 pv0 pv1 pv2 area x y)
    (interpolatedColor c0 c1 c2
      (F.div (triangle_edge ⟨x, y⟩ pv1 pv2) area)
      (F.div (triangle_edge ⟨x, y⟩ pv2 pv0) area)
      (F.div (triangle_edge ⟨x, y⟩ pv0 pv1) area)
      (sampleDepth ndc0 ndc1 ndc2 pv0 pv1 pv2 area x y))

/-- The body of `draw_mesh`'s innermost loop for one sample `(x, y)`:
edge functions, coverage test with the (inert) top-left clause, the buffer
index `((y * canvas_width) + x) as usize` computed in `i32` arithmetic,
barycentric normalization by the area, reciprocal-depth interpolation,
strict depth test against `depth_buffer[buff_idx]`, and the two buffer
writes.  `bufs` is `(pixel_buffer, depth_buffer)`; `none` models an
out-of-bounds buffer panic. -/
def rasterPixel (mesh : Mesh) (t : Triangle) (ndc0 ndc1 ndc2 c0 c1 c2 : Vector3)
    (pv0 pv1 pv2 : ScreenCoordinate) (area : F) (canvasW : Int) (x y : Int)
    (bufs : List Color × List F) : Option (List Color × List F) :=
  if sampleCovered ndc0 ndc1 ndc2 pv0 pv1 pv2 x y then
    let idx : Nat := buffIdx canvasW x y
    let depth := sampleDepth ndc0 ndc1 ndc2 pv0 pv1 pv2 area x y
    (listGetU? bufs.2 idx).bind fun dcur =>
      if F.blt depth dcur then
        (listSetU? bufs.2 idx depth).bind fun depth2 =>
          (listSetU? bufs.1 idx
            (sampleColor mesh t ndc0 ndc1 ndc2 c0 c1 c2 pv0 pv1 pv2 area x y)).bind
            fun color2 => some (color2, depth2)
      else some bufs
  else some bufs

/-- One triangle of `draw_mesh`: world / normal / NDC transforms, the
on-screen cull, per-vertex lighting, reciprocal depths, premultiplied
colors, pixel-space area, clipped bounding box, and the pixel loops
(`x` outer, `y` inner). -/
def drawTriangle (mesh : Mesh) (transform : Mat4) (lights : List Light)
    (camera : Camera) (t : Triangle) (bufs : List Color × List F) :
    Option (List Color × List F) :=
  let world0 := worldVert transform mesh t.a
  let world1 := worldVert transform mesh t.b
  let world2 := worldVert transform mesh t.c
  let n0 := usedNormal transform (mesh.vertex_normals.getD t.a_normal Vector3.origin)
  let n1 := usedNormal transform (mesh.vertex_normals.getD t.b_normal Vector3.origin)
  let n2 := usedNormal transform (mesh.vertex_normals.getD t.c_normal Vector3.origin)
  let ndc0 := ndcVertRaw camera transform mesh t.a
  let ndc1 := ndcVertRaw camera transform mesh t.b
  let ndc2 := ndcVertRaw camera transform mesh t.c
  if is_on_screen ndc0 camera.near_plane camera.far_plane
      || is_on_screen ndc1 camera.near_plane camera.far_plane
      || is_on_screen ndc2 camera.near_plane camera.far_plane then
    let pv0 := pixelVert camera transform mesh t.a
    let pv1 := pixelVert camera transform mesh t.b
    let pv2 := pixelVert camera transform mesh t.c
    let c0 := vertexLitColor lights world0 n0
    let c1 := vertexLitColor lights world1 n1
    let c2 := vertexLitColor lights world2 n2
    let z0 := F.div (F.fin 1) ndc0.z
    let z1 := F.div (F.fin 1) ndc1.z
    let z2 := F.div (F.fin 1) ndc2.z
    let ndc0r := Vector3.mk ndc0.x ndc0.y z0
    let ndc1r := Vector3.mk ndc1.x ndc1.y z1
    let ndc2r := Vector3.mk ndc2.x ndc2.y z2
    let c0r := Vector3.mulF c0 z0
    let c1r := Vector3.mulF c1 z1
    let c2r := Vector3.mulF c2 z2
    let area := F.fin (triAreaInt camera transform mesh t)
    let xStart := max (min (min pv0.x pv1.x) pv2.x) 0
    let xEnd := min (max (max pv0.x pv1.x) pv2.x) camera.canvas_width
    let yStart := max (min (min pv0.y pv1.y) pv2.y) 0
    let yEnd := min (max (max pv0.y pv1.y) pv2.y) camera.canvas_height
    List.foldlM
      (fun s xx =>
        List.foldlM
          (fun s2 yy =>
            rasterPixel mesh t ndc0r ndc1r ndc2r c0r c1r c2r pv0 pv1 pv2 area
              camera.canvas_width xx yy s2)
          s (intRange yStart yEnd))
      bufs (intRange xStart xEnd)
  else some bufs

/-- `rasterizer.rs`: `draw_mesh`, folding `drawTriangle` over the mesh's
triangle list.  `bufs` is the caller's `(pixel_buffer, depth_buffer)`; the
result is the final buffer pair, or `none` for an out-of-bounds buffer
access (a panic in Rust). -/
def draw_mesh (mesh : Mesh) (transform : Mat4) (lights : List Light)
    (camera : Camera) (bufs : List Color × List F) :
    Option (List Color × List F) :=
  mesh.face_indicies.foldlM
    (fun s t => drawTriangle mesh transform lights camera t s) bufs

/-! ## Helper lemmas -/

@[simp] theorem F.mul_fin (a b : ℚ) : F.mul (F.fin a) (F.fin b) = F.fin (a * b) := rfl

@[simp] theorem F.add_fin (a b : ℚ) : F.add (F.fin a) (F.fin b) = F.fin (a + b) := rfl

@[simp] theorem F.neg_fin (a : ℚ) : F.neg (F.fin a) = F.fin (-a) := rfl

@[simp] theorem F.sub_fin (a b : ℚ) : F.sub (F.fin a) (F.fin b) = F.fin (a - b) := by
  rw [sub_eq_add_neg]; rfl

@[simp] theorem F.beq_fin (a b : ℚ) : F.beq (F.fin a) (F.fin b) = decide (a = b) := rfl

@[simp] theorem F.blt_fin (a b : ℚ) : F.blt (F.fin a) (F.fin b) = decide (a < b) := rfl

@[simp] theorem F.ble_fin (a b : ℚ) : F.ble (F.fin a) (F.fin b) = decide (a ≤ b) := rfl

/-- The determinant `Mat4::inverse` computes on a matrix of 16 finite values
is the finite value of an explicit degree-4 polynomial (definitional). -/
theorem detComputed_fin_expand (a : Fin 4 → Fin 4 → ℚ) :
    (Mat4.mk [F.fin (a 0 0), F.fin (a 0 1), F.fin (a 0 2), F.fin (a 0 3), F.fin (a 1 0), F.fin (a 1 1), F.fin (a 1 2), F.fin (a 1 3), F.fin (a 2 0), F.fin (a 2 1), F.fin (a 2 2), F.fin (a 2 3), F.fin (a 3 0), F.fin (a 3 1), F.fin (a 3 2), F.fin (a 3 3)]).detComputed =
    F.fin (((((a 0 0) * ((((((((a 1 1) * (a 2 2)) * (a 3 3)) + -(((a 1 1) * (a 2 3)) * (a 3 2))) + -(((a 2 1) * (a 1 2)) * (a 3 3))) + (((a 2 1) * (a 1 3)) * (a 3 2))) + (((a 3 1) * (a 1 2)) * (a 2 3))) + -(((a 3 1) * (a 1 3)) * (a 2 2)))) + ((a 0 1) * ((((((((-(a 1 0)) * (a 2 2)) * (a 3 3)) + (((a 1 0) * (a 2 3)) * (a 3 2))) + (((a 2 0) * (a 1 2)) * (a 3 3))) + -(((a 2 0) * (a 1 3)) * (a 3 2))) + -(((a 3 0) * (a 1 2)) * (a 2 3))) + (((a 3 0) * (a 1 3)) * (a 2 2))))) + ((a 0 2) * ((((((((a 1 0) * (a 2 1)) * (a 3 3)) + -(((a 1 0) * (a 2 3)) * (a 3 1))) + -(((a 2 0) * (a 1 1)) * (a 3 3))) + (((a 2 0) * (a 1 3)) * (a 3 1))) + (((a 3 0) * (a 1 1)) * (a 2 3))) + -(((a 3 0) * (a 1 3)) * (a 2 1))))) + ((a 0 3) * ((((((((-(a 1 0)) * (a 2 1)) * (a 3 2)) + (((a 1 0) * (a 2 2)) * (a 3 1))) + (((a 2 0) * (a 1 1)) * (a 3 2))) + -(((a 2 0) * (a 1 2)) * (a 3 1))) + -(((a 3 0) * (a 1 1)) * (a 2 2))) + (((a 3 0) * (a 1 2)) * (a 2 1))))) := rfl

/-- The Laplace polynomial above is the mathematical determinant. -/
theorem det_expand (a : Fin 4 → Fin 4 → ℚ) :
    (Matrix.of a).det = (((((a 0 0) * ((((((((a 1 1) * (a 2 2)) * (a 3 3)) + -(((a 1 1) * (a 2 3)) * (a 3 2))) + -(((a 2 1) * (a 1 2)) * (a 3 3))) + (((a 2 1) * (a 1 3)) * (a 3 2))) + (((a 3 1) * (a 1 2)) * (a 2 3))) + -(((a 3 1) * (a 1 3)) * (a 2 2)))) + ((a 0 1) * ((((((((-(a 1 0)) * (a 2 2)) * (a 3 3)) + (((a 1 0) * (a 2 3)) * (a 3 2))) + (((a 2 0) * (a 1 2)) * (a 3 3))) + -(((a 2 0) * (a 1 3)) * (a 3 2))) + -(((a 3 0) * (a 1 2)) * (a 2 3))) + (((a 3 0) * (a 1 3)) * (a 2 2))))) + ((a 0 2) * ((((((((a 1 0) * (a 2 1)) * (a 3 3)) + -(((a 1 0) * (a 2 3)) * (a 3 1))) + -(((a 2 0) * (a 1 1)) * (a 3 3))) + (((a 2 0) * (a 1 3)) * (a 3 1))) + (((a 3 0) * (a 1 1)) * (a 2 3))) + -(((a 3 0) * (a 1 3)) * (a 2 1))))) + ((a 0 3) * ((((((((-(a 1 0)) * (a 2 1)) * (a 3 2)) + (((a 1 0) * (a 2 2)) * (a 3 1))) + (((a 2 0) * (a 1 1)) * (a 3 2))) + -(((a 2 0) * (a 1 2)) * (a 3 1))) + -(((a 3 0) * (a 1 1)) * (a 2 2))) + (((a 3 0) * (a 1 2)) * (a 2 1))))) := by
  simp only [Matrix.det_succ_row_zero, ← Nat.not_even_iff_odd, Matrix.submatrix_apply,
    Fin.succ_zero_eq_one, Matrix.submatrix_submatrix, Matrix.det_unique, Fin.default_eq_zero,
    Function.comp_apply, Fin.succ_one_eq_two, Fin.sum_univ_succ, Fin.val_zero,
    Fin.zero_succAbove, Finset.univ_unique, Fin.val_succ, Fin.val_eq_zero,
    Fin.succ_succAbove_zero, Finset.sum_singleton, Fin.succ_succAbove_one,
    even_add_self, Matrix.of_apply,
    show (Fin.succ 2 : Fin 4) = 3 from rfl,
    show Fin.succAbove (2 : Fin 4) 2 = 3 from rfl,
    show Fin.succAbove (1 : Fin 4) 2 = 3 from rfl,
    show Fin.succAbove (3 : Fin 4) 2 = 2 from rfl,
    show Fin.castSucc (2 : Fin 3) = 2 from rfl]
  norm_num
  ring

/-! ## The claims -/

/-- C8: for every `Mat4` `M` (of finite entries, the only matrices whose
mathematical determinant is defined), `inverse(M)` returns `Some` result
exactly when the determinant of `M` is nonzero, and returns `None` (the
`Singular` outcome) exactly when the determinant is zero. -/
theorem inverse_isSome_iff_det_ne_zero (a : Fin 4 → Fin 4 → ℚ) :
    (Mat4.mk [F.fin (a 0 0), F.fin (a 0 1), F.fin (a 0 2), F.fin (a 0 3), F.fin (a 1 0), F.fin (a 1 1), F.fin (a 1 2), F.fin (a 1 3), F.fin (a 2 0), F.fin (a 2 1), F.fin (a 2 2), F.fin (a 2 3), F.fin (a 3 0), F.fin (a 3 1), F.fin (a 3 2), F.fin (a 3 3)]).inverse.isSome = true ↔
      (Matrix.of a).det ≠ 0 := by
  unfold Mat4.inverse
  rw [detComputed_fin_expand a, show F.fin (((((a 0 0) * ((((((((a 1 1) * (a 2 2)) * (a 3 3)) + -(((a 1 1) * (a 2 3)) * (a 3 2))) + -(((a 2 1) * (a 1 2)) * (a 3 3))) + (((a 2 1) * (a 1 3)) * (a 3 2))) + (((a 3 1) * (a 1 2)) * (a 2 3))) + -(((a 3 1) * (a 1 3)) * (a 2 2)))) + ((a 0 1) * ((((((((-(a 1 0)) * (a 2 2)) * (a 3 3)) + (((a 1 0) * (a 2 3)) * (a 3 2))) + (((a 2 0) * (a 1 2)) * (a 3 3))) + -(((a 2 0) * (a 1 3)) * (a 3 2))) + -(((a 3 0) * (a 1 2)) * (a 2 3))) + (((a 3 0) * (a 1 3)) * (a 2 2))))) + ((a 0 2) * ((((((((a 1 0) * (a 2 1)) * (a 3 3)) + -(((a 1 0) * (a 2 3)) * (a 3 1))) + -(((a 2 0) * (a 1 1)) * (a 3 3))) + (((a 2 0) * (a 1 3)) * (a 3 1))) + (((a 3 0) * (a 1 1)) * (a 2 3))) + -(((a 3 0) * (a 1 3)) * (a 2 1))))) + ((a 0 3) * ((((((((-(a 1 0)) * (a 2 1)) * (a 3 2)) + (((a 1 0) * (a 2 2)) * (a 3 1))) + (((a 2 0) * (a 1 1)) * (a 3 2))) + -(((a 2 0) * (a 1 2)) * (a 3 1))) + -(((a 3 0) * (a 1 1)) * (a 2 2))) + (((a 3 0) * (a 1 2)) * (a 2 1))))) = F.fin ((Matrix.of a).det) from by rw [det_expand a]]
  by_cases h : (Matrix.of a).det = 0
  · simp [F.beq_fin, h]
  · simp [F.beq_fin, h]

theorem F.toU8_fin (a : ℚ) :
    F.toU8 (F.fin a) = if a ≤ 0 then 0 else ⟨min 255 (ratTrunc a).toNat, by omega⟩ := rfl

/-- One color channel round-trips through `/255`, clamp, `*255`, `as u8`. -/
theorem toU8_clamp_byte (r : Fin 256) :
    F.toU8 (F.mul (F.clamp (F.fin ((r : ℚ) / 255)) (F.fin 0) (F.fin 1)) (F.fin 255)) = r := by
  have h0 : (0 : ℚ) ≤ (r : ℚ) / 255 := by positivity
  have h255 : (r : ℚ) ≤ 255 := by
    have := r.isLt
    exact_mod_cast Nat.le_of_lt_succ this
  have h1 : (r : ℚ) / 255 ≤ 1 := by
    rw [div_le_one (by norm_num)]
    exact h255
  have hc : F.clamp (F.fin ((r : ℚ) / 255)) (F.fin 0) (F.fin 1) = F.fin ((r : ℚ) / 255) := by
    unfold F.clamp
    rw [if_neg, if_neg]
    · simp only [F.blt_fin, decide_eq_true_eq]
      intro hlt
      exact absurd h1 (not_le.mpr hlt)
    · simp only [F.blt_fin, decide_eq_true_eq]
      intro hlt
      exact absurd h0 (not_le.mpr hlt)
  rw [hc, F.mul_fin, div_mul_cancel₀ ((r : ℚ)) (by norm_num : (255 : ℚ) ≠ 0)]
  rw [F.toU8_fin]
  rcases Nat.eq_zero_or_pos r.val with hz | hp
  · have : (r : ℚ) = 0 := by exact_mod_cast hz
    rw [this, if_pos le_rfl]
    exact (Fin.ext hz.symm)
  · have hnot : ¬ ((r : ℚ) ≤ 0) := by
      push_neg
      exact_mod_cast hp
    rw [if_neg hnot]
    apply Fin.ext
    show min 255 (ratTrunc (r : ℚ)).toNat = r.val
    have ht : ratTrunc ((r : ℚ)) = (r.val : Int) := by
      unfold ratTrunc
      rw [if_pos (by positivity : (0 : ℚ) ≤ (r : ℚ))]
      exact_mod_cast Int.floor_natCast r.val
    rw [ht]
    simp only [Int.toNat_natCast]
    exact Nat.min_eq_right (Nat.le_of_lt_succ r.isLt)

/-- C10: for every `Color` `c` (all 256 byte values per channel),
`c.to_vector3().to_color() == c`: dividing each channel by 255, clamping to
`[0,1]`, multiplying by 255 and truncating to a byte is the identity. -/
theorem to_vector3_to_color_id (c : Color) : (c.to_vector3).to_color = c := by
  obtain ⟨r, g, b⟩ := c
  simp only [Color.to_vector3, Vector3.to_color]
  rw [toU8_clamp_byte r, toU8_clamp_byte g, toU8_clamp_byte b]

theorem F.toI32_fin (a : ℚ) :
    F.toI32 (F.fin a) = max i32Min (min i32Max (ratTrunc a)) := rfl

/-- The `as i32` cast of `t * W` for `t ∈ [0, 1]` and an in-range canvas
width `W` is the floor (truncation agrees with floor on nonnegative values,
and the saturation bounds are slack). -/
theorem toI32_scaled (t : ℚ) (W : Int) (h0 : 0 ≤ t) (h1 : t ≤ 1) (hW : 0 < W)
    (hWmax : W ≤ i32Max) :
    F.toI32 (F.fin (t * (W : ℚ))) = ⌊t * (W : ℚ)⌋ := by
  rw [F.toI32_fin]
  have hWq : (0 : ℚ) ≤ (W : ℚ) := by exact_mod_cast hW.le
  have hq0 : 0 ≤ t * (W : ℚ) := mul_nonneg h0 hWq
  rw [ratTrunc, if_pos hq0]
  have hfl0 : (0 : ℤ) ≤ ⌊t * (W : ℚ)⌋ := Int.floor_nonneg.mpr hq0
  have hflW : ⌊t * (W : ℚ)⌋ ≤ W := by
    have hle : t * (W : ℚ) ≤ (W : ℚ) := by nlinarith
    calc ⌊t * (W : ℚ)⌋ ≤ ⌊(W : ℚ)⌋ := Int.floor_le_floor hle
      _ = W := Int.floor_intCast W
  rw [min_eq_right (le_trans hflW hWmax)]
  exact max_eq_right (le_trans (by norm_num [i32Min]) hfl0)

/-- C6 (amended): `ndc_to_pixel` casts with `as i32`, which truncates toward
zero (not floor); on NDC coordinates in `[-1,1]` the scaled values are
nonnegative, truncation coincides with floor, and the claimed formula holds,
as do the two corner identities `(-1,1,z) ↦ (0,0)` and `(1,-1,z) ↦ (W,H)`
(for canvas sizes in the `i32` range, where the saturating cast is slack). -/
theorem ndc_to_pixel_floor_on_canonical :
    (∀ (vx vy : ℚ) (vz : F) (W H : Int),
      -1 ≤ vx → vx ≤ 1 → -1 ≤ vy → vy ≤ 1 →
      0 < W → W ≤ i32Max → 0 < H → H ≤ i32Max →
      Vector3.ndc_to_pixel ⟨F.fin vx, F.fin vy, vz⟩ W H =
        ⟨⌊(vx + 1) * (1 / 2) * (W : ℚ)⌋, ⌊(1 - vy) * (1 / 2) * (H : ℚ)⌋⟩) ∧
    (∀ (vz : F) (W H : Int),
      0 < W → W ≤ i32Max → 0 < H → H ≤ i32Max →
      Vector3.ndc_to_pixel ⟨F.fin (-1), F.fin 1, vz⟩ W H = ⟨0, 0⟩ ∧
      Vector3.ndc_to_pixel ⟨F.fin 1, F.fin (-1), vz⟩ W H = ⟨W, H⟩) := by
  have main : ∀ (vx vy : ℚ) (vz : F) (W H : Int),
      -1 ≤ vx → vx ≤ 1 → -1 ≤ vy → vy ≤ 1 →
      0 < W → W ≤ i32Max → 0 < H → H ≤ i32Max →
      Vector3.ndc_to_pixel ⟨F.fin vx, F.fin vy, vz⟩ W H =
        ⟨⌊(vx + 1) * (1 / 2) * (W : ℚ)⌋, ⌊(1 - vy) * (1 / 2) * (H : ℚ)⌋⟩ := by
    intro vx vy vz W H ha hb hc hd hW hWm hH hHm
    unfold Vector3.ndc_to_pixel
    simp only [F.add_fin, F.sub_fin, F.mul_fin, F.ofInt]
    rw [toI32_scaled ((vx + 1) * (1 / 2)) W (by linarith) (by linarith) hW hWm,
      toI32_scaled ((1 - vy) * (1 / 2)) H (by linarith) (by linarith) hH hHm]
  refine ⟨main, ?_⟩
  intro vz W H hW hWm hH hHm
  constructor
  · rw [main (-1) 1 vz W H (by norm_num) (by norm_num) (by norm_num) (by norm_num)
      hW hWm hH hHm]
    norm_num
  · rw [main 1 (-1) vz W H (by norm_num) (by norm_num) (by norm_num) (by norm_num)
      hW hWm hH hHm]
    norm_num [Int.floor_intCast]

/-- C6 counterexample: at `v = (-2, 3, 0)`, `W = H = 1` (positive canvas,
`v` outside the canonical box), the `as i32` cast truncates `-0.5` to `0`
while the claimed floor gives `-1`, so `ndc_to_pixel` is not the floor
formula on every `Vec3`. -/
theorem ndc_to_pixel_not_floor :
    Vector3.ndc_to_pixel ⟨F.fin (-2), F.fin 3, F.fin 0⟩ 1 1 ≠
      ⟨⌊((-2 : ℚ) + 1) * (1 / 2) * ((1 : Int) : ℚ)⌋,
       ⌊((1 : ℚ) - 3) * (1 / 2) * ((1 : Int) : ℚ)⌋⟩ := by with_unfolding_all decide

/-- C1: the coverage test of `draw_mesh` accepts every on-edge sample
regardless of the top-left rule — the `(w == 0.0 && top-left)` clause is
subsumed by `|| w >= 0.0` — so a pixel on an edge shared by two
opposite-winding triangles is accepted by BOTH.  Concretely (canvas 4×4,
NDC triangle A = ((-1,1,1), (1,1,1), (-1,-1,1)) and its opposite-winding
neighbour B = ((1,-1,1), (-1,-1,1), (1,1,1)), which share the diagonal
edge): pixel (2,2) lies exactly on the shared edge (`w0 == 0` in both);
A's edge-0 vector `n2 - n1 = (-2,-2,0)` is neither a top nor a left edge,
yet A's coverage test accepts the sample, as does B's. -/
theorem coverage_accepts_sample_on_non_topleft_edge :
    -- the three NDC vertices of A map to pixels (0,0), (4,0), (0,4)
    (Vector3.ndc_to_pixel ⟨F.fin (-1), F.fin 1, F.fin 1⟩ 4 4 = ⟨0, 0⟩ ∧
     Vector3.ndc_to_pixel ⟨F.fin 1, F.fin 1, F.fin 1⟩ 4 4 = ⟨4, 0⟩ ∧
     Vector3.ndc_to_pixel ⟨F.fin (-1), F.fin (-1), F.fin 1⟩ 4 4 = ⟨0, 4⟩ ∧
     Vector3.ndc_to_pixel ⟨F.fin 1, F.fin (-1), F.fin 1⟩ 4 4 = ⟨4, 4⟩) ∧
    -- pixel (2,2) lies exactly on A's edge 0 (from pixel (4,0) to (0,4))
    triangle_edge ⟨2, 2⟩ ⟨4, 0⟩ ⟨0, 4⟩ = F.fin 0 ∧
    -- A's edge-0 NDC vector (-2,-2,0) is neither top (dy = 0, dx > 0) nor left (dy > 0)
    topLeftRule (Vector3.sub ⟨F.fin (-1), F.fin (-1), F.fin 1⟩ ⟨F.fin 1, F.fin 1, F.fin 1⟩)
      = false ∧
    -- yet A's coverage test accepts the sample (the claim says it must reject it)
    insideCoverage (triangle_edge ⟨2, 2⟩ ⟨4, 0⟩ ⟨0, 4⟩)
      (triangle_edge ⟨2, 2⟩ ⟨0, 4⟩ ⟨0, 0⟩) (triangle_edge ⟨2, 2⟩ ⟨0, 0⟩ ⟨4, 0⟩)
      (Vector3.sub ⟨F.fin (-1), F.fin (-1), F.fin 1⟩ ⟨F.fin 1, F.fin 1, F.fin 1⟩)
      (Vector3.sub ⟨F.fin (-1), F.fin 1, F.fin 1⟩ ⟨F.fin (-1), F.fin (-1), F.fin 1⟩)
      (Vector3.sub ⟨F.fin 1, F.fin 1, F.fin 1⟩ ⟨F.fin (-1), F.fin 1, F.fin 1⟩) = true ∧
    -- and B's coverage test accepts the very same pixel on the shared edge
    insideCoverage (triangle_edge ⟨2, 2⟩ ⟨0, 4⟩ ⟨4, 0⟩)
      (triangle_edge ⟨2, 2⟩ ⟨4, 0⟩ ⟨4, 4⟩) (triangle_edge ⟨2, 2⟩ ⟨4, 4⟩ ⟨0, 4⟩)
      (Vector3.sub ⟨F.fin 1, F.fin 1, F.fin 1⟩ ⟨F.fin (-1), F.fin (-1), F.fin 1⟩)
      (Vector3.sub ⟨F.fin 1, F.fin (-1), F.fin 1⟩ ⟨F.fin 1, F.fin 1, F.fin 1⟩)
      (Vector3.sub ⟨F.fin (-1), F.fin (-1), F.fin 1⟩ ⟨F.fin 1, F.fin (-1), F.fin 1⟩)
      = true := by with_unfolding_all decide

/-- C3: when the model matrix is singular, `draw_mesh` substitutes
`Mat3::default()` — the all-ZERO matrix (the derived `Default` for `Mat3`),
not the identity — so every vertex normal used for lighting collapses to the
zero vector instead of passing through unchanged.  Evaluated at the singular
`Mat4::scale(0,0,0)` and the unit mesh normal `(0,0,1)`. -/
theorem singular_transform_zeroes_normals :
    Mat4.inverse (Mat4.scale (F.fin 0) (F.fin 0) (F.fin 0)) = none ∧
    normalMatrix (Mat4.scale (F.fin 0) (F.fin 0) (F.fin 0)) = Mat3.default ∧
    Mat3.default.data = List.replicate 9 (F.fin 0) ∧
    usedNormal (Mat4.scale (F.fin 0) (F.fin 0) (F.fin 0)) ⟨F.fin 0, F.fin 0, F.fin 1⟩
      = Vector3.origin ∧
    Vector3.origin ≠ ⟨F.fin 0, F.fin 0, F.fin 1⟩ := by with_unfolding_all decide

theorem mem_intRange {a b i : Int} : i ∈ intRange a b ↔ a ≤ i ∧ i < b := by
  unfold intRange
  constructor
  · intro h
    rcases List.mem_map.mp h with ⟨n, hn, rfl⟩
    rw [List.mem_range] at hn
    omega
  · rintro ⟨h1, h2⟩
    refine List.mem_map.mpr ⟨(i - a).toNat, ?_, by omega⟩
    rw [List.mem_range]
    omega

/-- A nonempty `a..b` range starts at `a`. -/
theorem intRange_cons {a c : Int} (h : a < c) :
    intRange a c = a :: intRange (a + 1) c := by
  unfold intRange
  have hk : (c - a).toNat = (c - (a + 1)).toNat + 1 := by omega
  rw [hk, List.range_succ_eq_map, List.map_cons, List.map_map]
  congr 1
  · simp
  · refine List.map_congr_left fun n _ => ?_
    simp only [Function.comp_apply]
    push_cast
    ring

/-- An `Option`-valued left fold over a nonempty `a..b` range fails when its
first step fails. -/
theorem foldlM_none_head {σ : Type} (f : σ → Int → Option σ) (b : σ) (a c : Int)
    (h1 : a < c) (h : f b a = none) :
    List.foldlM f b (intRange a c) = none := by
  rw [intRange_cons h1, List.foldlM_cons, h]
  rfl

/-- An `Option`-valued left fold succeeds and preserves an invariant when
every step does. -/
theorem foldlM_option_inv {σ α : Type} (P : σ → Prop) (f : σ → α → Option σ) :
    ∀ (l : List α) (s : σ), P s →
      (∀ s' a, P s' → a ∈ l → ∃ out, f s' a = some out ∧ P out) →
      ∃ out, List.foldlM f s l = some out ∧ P out := by
  intro l
  induction l with
  | nil => exact fun s hs _ => ⟨s, rfl, hs⟩
  | cons a as ih =>
    intro s hs hstep
    obtain ⟨s1, hf, hP1⟩ := hstep s a hs (List.mem_cons_self a as)
    obtain ⟨out, hfold, hPout⟩ :=
      ih s1 hP1 (fun s' a' h h' => hstep s' a' h (List.mem_cons_of_mem a h'))
    refine ⟨out, ?_, hPout⟩
    rw [List.foldlM_cons, hf]
    exact hfold

/-- A transitive reflexive relation that every step of an `Option`-valued
left fold respects is respected by the whole fold. -/
theorem foldlM_option_rel {σ α : Type} (R : σ → σ → Prop)
    (htrans : ∀ x y z, R x y → R y z → R x z) (hrefl : ∀ x, R x x)
    (f : σ → α → Option σ) :
    ∀ (l : List α) (s out : σ),
      (∀ s' a out', a ∈ l → f s' a = some out' → R s' out') →
      List.foldlM f s l = some out → R s out := by
  intro l
  induction l with
  | nil =>
    intro s out _ h
    have hs : s = out := by simpa using h
    subst hs
    exact hrefl s
  | cons a as ih =>
    intro s out hstep h
    rw [List.foldlM_cons] at h
    cases hfa : f s a with
    | none => rw [hfa] at h; simp at h
    | some s1 =>
      rw [hfa] at h
      have h1 : R s s1 := hstep s a s1 (List.mem_cons_self a as) hfa
      have h2 : R s1 out :=
        ih s1 out (fun x y z hy => hstep x y z (List.mem_cons_of_mem a hy)) (by simpa using h)
      exact htrans _ _ _ h1 h2

theorem F.blt_trans {a b c : F} (h1 : F.blt a b = true) (h2 : F.blt b c = true) :
    F.blt a c = true := by
  cases a <;> cases b <;> cases c <;> simp_all [F.blt]
  exact lt_trans h1 h2

@[simp] theorem F.mul_nan_right (a : F) : F.mul a F.nan = F.nan := by cases a <;> rfl

@[simp] theorem F.add_nan_right (a : F) : F.add a F.nan = F.nan := by cases a <;> rfl

@[simp] theorem F.div_nan_right (a : F) : F.div a F.nan = F.nan := by cases a <;> rfl

@[simp] theorem F.nan_blt (b : F) : F.blt F.nan b = false := by cases b <;> rfl

theorem F.zero_div_zero : F.div (F.fin 0) (F.fin 0) = F.nan := by
  simp [F.div]

/-- The three edge functions of a sample sum to the triangle's signed area
`triangle_edge(v2, v0, v1)` (an exact integer identity). -/
theorem triangle_edge_int_sum (p v0 v1 v2 : ScreenCoordinate) :
    triangle_edge_int p v1 v2 + triangle_edge_int p v2 v0 + triangle_edge_int p v0 v1 =
      triangle_edge_int v2 v0 v1 := by
  unfold triangle_edge_int; ring

/-- The true (unbounded) row-major index of an in-canvas sample is in range
of a `W * H` buffer. -/
theorem rowMajor_bounds {x y W H : Int} (hx0 : 0 ≤ x) (hx : x < W) (hy0 : 0 ≤ y)
    (hy : y < H) : 0 ≤ y * W + x ∧ y * W + x < W * H := by
  constructor
  · have := mul_nonneg hy0 (le_trans hx0 hx.le)
    omega
  · have h1 : y * W ≤ (H - 1) * W :=
      mul_le_mul_of_nonneg_right (by omega) (by omega)
    have h2 : (H - 1) * W = H * W - W := by ring
    have h3 : H * W = W * H := mul_comm H W
    omega

theorem wrap32_eq_self {n : Int} (h1 : -(2 ^ 31) ≤ n) (h2 : n < 2 ^ 31) :
    wrap32 n = n := by
  unfold wrap32
  rw [Int.emod_eq_of_lt (by omega) (by omega)]
  omega

/-- On a canvas with `W * H ≤ 2^31` the `i32` index arithmetic of an
in-canvas sample never overflows: the computed `usize` index is the true
row-major index, in range of a `W * H` buffer. -/
theorem buffIdx_small {x y W H : Int} (hx0 : 0 ≤ x) (hx : x < W) (hy0 : 0 ≤ y)
    (hy : y < H) (hWH : W * H ≤ 2 ^ 31) :
    buffIdx W x y = (y * W + x).toNat ∧ buffIdx W x y < (W * H).toNat := by
  obtain ⟨h0, hlt⟩ := rowMajor_bounds hx0 hx hy0 hy
  have hyW0 : 0 ≤ y * W := mul_nonneg hy0 (by omega)
  unfold buffIdx
  have h1 : wrap32 (y * W) = y * W := wrap32_eq_self (by omega) (by omega)
  rw [h1, wrap32_eq_self (by omega) (by omega)]
  unfold i32ToUsize
  rw [Int.emod_eq_of_lt (by omega) (by omega)]
  exact ⟨rfl, by omega⟩

theorem listGetU?_pos {α : Type} {l : List α} {i : Nat}
    (hlen : i < l.length) : listGetU? l i = some (l.get ⟨i, hlen⟩) := by
  unfold listGetU?
  rw [dif_pos hlen]

theorem listGetU?_ge {α : Type} {l : List α} {i : Nat} (h : l.length ≤ i) :
    listGetU? l i = none := by
  unfold listGetU?
  rw [dif_neg (by omega)]

theorem listSetU?_pos {α : Type} {l : List α} {i : Nat} (a : α)
    (hlen : i < l.length) : listSetU? l i a = some (l.set i a) := by
  unfold listSetU?
  rw [if_pos hlen]

theorem listSetU?_some_elim {α : Type} {l : List α} {i : Nat} {a : α} {l2 : List α}
    (h : listSetU? l i a = some l2) :
    i < l.length ∧ l2 = l.set i a := by
  unfold listSetU? at h
  split at h
  · next hcond => exact ⟨hcond, (Option.some.inj h).symm⟩
  · exact Option.noConfusion h

/-- A disjunct of the coverage test forces a nonnegative edge function
(the `w == 0.0` clause implies `w >= 0.0`, making the top-left clause inert). -/
theorem coverage_disjunct_nonneg {i : Int} {P : Prop}
    (h : (F.beq (F.fin (i : ℚ)) (F.fin 0) = true ∧ P) ∨
      F.ble (F.fin 0) (F.fin (i : ℚ)) = true) : 0 ≤ i := by
  rcases h with h | h
  · have h1 := h.1
    rw [F.beq_fin, decide_eq_true_eq] at h1
    have : (i : ℚ) = 0 := h1
    exact le_of_eq (by exact_mod_cast this.symm)
  · rw [F.ble_fin, decide_eq_true_eq] at h
    exact_mod_cast h

/-- A sample of a zero-area triangle is never written: when the coverage
test passes, all three edge weights are 0, the division by the zero area
yields NaN, the interpolated depth is NaN, and the NaN depth comparison is
false. -/
theorem rasterPixel_zero_area_id (mesh : Mesh) (t : Triangle)
    (ndc0 ndc1 ndc2 c0 c1 c2 : Vector3) (pv0 pv1 pv2 : ScreenCoordinate)
    (area : F) (W x y : Int) (bufs out : List Color × List F)
    (harea : area = F.fin 0)
    (hzero : triangle_edge_int pv2 pv0 pv1 = 0)
    (h : rasterPixel mesh t ndc0 ndc1 ndc2 c0 c1 c2 pv0 pv1 pv2 area W x y bufs =
      some out) : out = bufs := by
  subst harea
  simp only [rasterPixel] at h
  split at h
  case isFalse => exact (Option.some.inj h).symm
  case isTrue hcov =>
    unfold sampleCovered insideCoverage at hcov
    simp only [triangle_edge, Bool.and_eq_true, Bool.or_eq_true] at hcov
    obtain ⟨⟨hA, hB⟩, hC⟩ := hcov
    have hi0 : 0 ≤ triangle_edge_int ⟨x, y⟩ pv1 pv2 := coverage_disjunct_nonneg hA
    have hi1 : 0 ≤ triangle_edge_int ⟨x, y⟩ pv2 pv0 := coverage_disjunct_nonneg hB
    have hi2 : 0 ≤ triangle_edge_int ⟨x, y⟩ pv0 pv1 := coverage_disjunct_nonneg hC
    have hsum := triangle_edge_int_sum ⟨x, y⟩ pv0 pv1 pv2
    have e0 : triangle_edge_int ⟨x, y⟩ pv1 pv2 = 0 := by omega
    have e1 : triangle_edge_int ⟨x, y⟩ pv2 pv0 = 0 := by omega
    have e2 : triangle_edge_int ⟨x, y⟩ pv0 pv1 = 0 := by omega
    have hdepth : sampleDepth ndc0 ndc1 ndc2 pv0 pv1 pv2 (F.fin 0) x y = F.nan := by
      unfold sampleDepth
      rw [show triangle_edge ⟨x, y⟩ pv1 pv2 = F.fin 0 by rw [triangle_edge, e0]; norm_num,
        show triangle_edge ⟨x, y⟩ pv2 pv0 = F.fin 0 by rw [triangle_edge, e1]; norm_num,
        show triangle_edge ⟨x, y⟩ pv0 pv1 = F.fin 0 by rw [triangle_edge, e2]; norm_num,
        F.zero_div_zero]
      simp [barycentricDepth]
    rw [hdepth] at h
    simp only [F.nan_blt, Bool.false_eq_true, if_false] at h
    cases hget : listGetU? bufs.2 (buffIdx W x y) with
    | none => rw [hget] at h; simp at h
    | some dcur =>
      rw [hget] at h
      exact (Option.some.inj h).symm

/-- C2 (amended): `draw_mesh` contains no explicit skip for a zero-area
triangle — the weight normalization divides by the area unconditionally —
yet a triangle whose signed pixel-space area `triangle_edge(p2, p0, p1)` is
zero writes nothing: its `drawTriangle` pass returns the buffers unchanged. -/
theorem zero_area_triangle_writes_nothing (mesh : Mesh) (transform : Mat4)
    (lights : List Light) (camera : Camera) (t : Triangle)
    (bufs out : List Color × List F)
    (harea : triAreaInt camera transform mesh t = 0)
    (h : drawTriangle mesh transform lights camera t bufs = some out) :
    out = bufs := by
  simp only [drawTriangle] at h
  split at h
  case isFalse => exact (Option.some.inj h).symm
  case isTrue =>
    refine foldlM_option_rel (fun s s' => s' = s) (fun x y z a b => by rw [b, a])
      (fun x => rfl) _ _ _ _ ?_ h
    intro s xx out' hmem hfx
    refine foldlM_option_rel (fun s s' => s' = s) (fun x y z a b => by rw [b, a])
      (fun x => rfl) _ _ _ _ ?_ hfx
    intro s2 yy out2 hmem2 hfy
    refine rasterPixel_zero_area_id _ _ _ _ _ _ _ _ _ _ _ _ _ _ _ _ _
      ?_ harea hfy
    rw [harea]
    norm_num

/-- One rasterized sample with in-range coordinates on a canvas with
`W * H ≤ 2^31` succeeds (no index overflow, no buffer panic) and preserves
the buffer lengths. -/
theorem rasterPixel_isSome (mesh : Mesh) (t : Triangle)
    (ndc0 ndc1 ndc2 c0 c1 c2 : Vector3) (pv0 pv1 pv2 : ScreenCoordinate)
    (area : F) (W H x y : Int) (bufs : List Color × List F)
    (hx0 : 0 ≤ x) (hx : x < W) (hy0 : 0 ≤ y) (hy : y < H) (hWH : W * H ≤ 2 ^ 31)
    (hc : bufs.1.length = (W * H).toNat) (hd : bufs.2.length = (W * H).toNat) :
    ∃ out, rasterPixel mesh t ndc0 ndc1 ndc2 c0 c1 c2 pv0 pv1 pv2 area W x y bufs
        = some out ∧ out.1.length = (W * H).toNat ∧ out.2.length = (W * H).toNat := by
  obtain ⟨heq, hlt⟩ := buffIdx_small hx0 hx hy0 hy hWH
  have hlt2 : buffIdx W x y < bufs.2.length := by omega
  have hlt1 : buffIdx W x y < bufs.1.length := by omega
  simp only [rasterPixel]
  split
  case isTrue =>
    rw [listGetU?_pos hlt2, Option.some_bind]
    split
    case isTrue =>
      rw [listSetU?_pos _ hlt2, Option.some_bind,
        listSetU?_pos _ hlt1, Option.some_bind]
      exact ⟨_, rfl, by simpa using hc, by simpa using hd⟩
    case isFalse => exact ⟨bufs, rfl, hc, hd⟩
  case isFalse => exact ⟨bufs, rfl, hc, hd⟩

/-- One triangle of `draw_mesh` succeeds on well-sized buffers over a canvas
with `W * H ≤ 2^31` and preserves their lengths: the clipped bounding box
keeps every sample inside `[0, W) × [0, H)` and the index arithmetic never
overflows. -/
theorem drawTriangle_isSome (mesh : Mesh) (transform : Mat4) (lights : List Light)
    (camera : Camera) (t : Triangle) (bufs : List Color × List F)
    (hWH : camera.canvas_width * camera.canvas_height ≤ 2 ^ 31)
    (hc : bufs.1.length = (camera.canvas_width * camera.canvas_height).toNat)
    (hd : bufs.2.length = (camera.canvas_width * camera.canvas_height).toNat) :
    ∃ out, drawTriangle mesh transform lights camera t bufs = some out ∧
      out.1.length = (camera.canvas_width * camera.canvas_height).toNat ∧
      out.2.length = (camera.canvas_width * camera.canvas_height).toNat := by
  simp only [drawTriangle]
  split
  case isTrue =>
    refine foldlM_option_inv
      (fun (s : List Color × List F) =>
        s.1.length = (camera.canvas_width * camera.canvas_height).toNat ∧
        s.2.length = (camera.canvas_width * camera.canvas_height).toNat) _ _ _
      ⟨hc, hd⟩ ?_
    intro s xx hPs hmem
    rw [mem_intRange] at hmem
    have hx0 : 0 ≤ xx := le_trans (le_max_right _ 0) hmem.1
    have hx : xx < camera.canvas_width := lt_of_lt_of_le hmem.2 (min_le_right _ _)
    refine foldlM_option_inv
      (fun (s : List Color × List F) =>
        s.1.length = (camera.canvas_width * camera.canvas_height).toNat ∧
        s.2.length = (camera.canvas_width * camera.canvas_height).toNat) _ _ _
      hPs ?_
    intro s2 yy hPs2 hmem2
    rw [mem_intRange] at hmem2
    have hy0 : 0 ≤ yy := le_trans (le_max_right _ 0) hmem2.1
    have hy : yy < camera.canvas_height := lt_of_lt_of_le hmem2.2 (min_le_right _ _)
    obtain ⟨out, hsome, h1, h2⟩ := rasterPixel_isSome mesh t _ _ _ _ _ _ _ _ _ _
      camera.canvas_width camera.canvas_height xx yy s2 hx0 hx hy0 hy hWH hPs2.1 hPs2.2
    exact ⟨out, hsome, h1, h2⟩
  case isFalse => exact ⟨bufs, rfl, hc, hd⟩

/-- `rasterPixel` panics (returns `none`) when its sample is covered and the
computed buffer index is out of range of the depth buffer. -/
theorem rasterPixel_none_of_oob (mesh : Mesh) (t : Triangle)
    (ndc0 ndc1 ndc2 c0 c1 c2 : Vector3) (pv0 pv1 pv2 : ScreenCoordinate)
    (area : F) (W x y : Int) (bufs : List Color × List F)
    (hcov : sampleCovered ndc0 ndc1 ndc2 pv0 pv1 pv2 x y = true)
    (hoob : bufs.2.length ≤ buffIdx W x y) :
    rasterPixel mesh t ndc0 ndc1 ndc2 c0 c1 c2 pv0 pv1 pv2 area W x y bufs = none := by
  simp only [rasterPixel]
  rw [if_pos hcov, listGetU?_ge hoob]
  rfl

/-- `drawTriangle` panics (returns `none`) when the first sample its pixel
loops process does: for an on-screen triangle with a nonempty clipped
bounding box that first sample is `(x_start, y_start)`, and the `none`
propagates through both folds. -/
theorem drawTriangle_none_of_first (mesh : Mesh) (transform : Mat4)
    (lights : List Light) (camera : Camera) (t : Triangle)
    (bufs : List Color × List F)
    (hscr : (is_on_screen (ndcVertRaw camera transform mesh t.a) camera.near_plane
          camera.far_plane ||
        is_on_screen (ndcVertRaw camera transform mesh t.b) camera.near_plane
          camera.far_plane ||
        is_on_screen (ndcVertRaw camera transform mesh t.c) camera.near_plane
          camera.far_plane) = true)
    (hx : max (min (min (pixelVert camera transform mesh t.a).x
          (pixelVert camera transform mesh t.b).x)
        (pixelVert camera transform mesh t.c).x) 0 <
        min (max (max (pixelVert camera transform mesh t.a).x
          (pixelVert camera transform mesh t.b).x)
        (pixelVert camera transform mesh t.c).x) camera.canvas_width)
    (hy : max (min (min (pixelVert camera transform mesh t.a).y
          (pixelVert camera transform mesh t.b).y)
        (pixelVert camera transform mesh t.c).y) 0 <
        min (max (max (pixelVert camera transform mesh t.a).y
          (pixelVert camera transform mesh t.b).y)
        (pixelVert camera transform mesh t.c).y) camera.canvas_height)
    (hnone : rasterPixel mesh t
        (Vector3.mk (ndcVertRaw camera transform mesh t.a).x
          (ndcVertRaw camera transform mesh t.a).y
          (F.div (F.fin 1) (ndcVertRaw camera transform mesh t.a).z))
        (Vector3.mk (ndcVertRaw camera transform mesh t.b).x
          (ndcVertRaw camera transform mesh t.b).y
          (F.div (F.fin 1) (ndcVertRaw camera transform mesh t.b).z))
        (Vector3.mk (ndcVertRaw camera transform mesh t.c).x
          (ndcVertRaw camera transform mesh t.c).y
          (F.div (F.fin 1) (ndcVertRaw camera transform mesh t.c).z))
        (Vector3.mulF (vertexLitColor lights (worldVert transform mesh t.a)
            (usedNormal transform (mesh.vertex_normals.getD t.a_normal Vector3.origin)))
          (F.div (F.fin 1) (ndcVertRaw camera transform mesh t.a).z))
        (Vector3.mulF (vertexLitColor lights (worldVert transform mesh t.b)
            (usedNormal transform (mesh.vertex_normals.getD t.b_normal Vector3.origin)))
          (F.div (F.fin 1) (ndcVertRaw camera transform mesh t.b).z))
        (Vector3.mulF (vertexLitColor lights (worldVert transform mesh t.c)
            (usedNormal transform (mesh.vertex_normals.getD t.c_normal Vector3.origin)))
          (F.div (F.fin 1) (ndcVertRaw camera transform mesh t.c).z))
        (pixelVert camera transform mesh t.a) (pixelVert camera transform mesh t.b)
        (pixelVert camera transform mesh t.c)
        (F.fin (triAreaInt camera transform mesh t)) camera.canvas_width
        (max (min (min (pixelVert camera transform mesh t.a).x
          (pixelVert camera transform mesh t.b).x)
          (pixelVert camera transform mesh t.c).x) 0)
        (max (min (min (pixelVert camera transform mesh t.a).y
          (pixelVert camera transform mesh t.b).y)
          (pixelVert camera transform mesh t.c).y) 0)
        bufs = none) :
    drawTriangle mesh transform lights camera t bufs = none := by
  simp only [drawTriangle]
  rw [if_pos hscr]
  refine foldlM_none_head _ _ _ _ hx ?_
  refine foldlM_none_head _ _ _ _ hy ?_
  exact hnone

/-- The in-bounds guarantee that survives the `i32` index arithmetic: on
buffers of length `canvas_width * canvas_height` over a canvas with
`canvas_width * canvas_height ≤ 2^31`, `draw_mesh` never reads or writes
either buffer out of bounds (an out-of-bounds access in the model is
`none`, the Rust panic), so the call returns `some` and the buffer lengths
are preserved — even for triangles partially or fully off-screen. -/
theorem draw_mesh_in_bounds_small_canvas (mesh : Mesh) (transform : Mat4)
    (lights : List Light) (camera : Camera) (bufs : List Color × List F)
    (hWH : camera.canvas_width * camera.canvas_height ≤ 2 ^ 31)
    (hc : bufs.1.length = (camera.canvas_width * camera.canvas_height).toNat)
    (hd : bufs.2.length = (camera.canvas_width * camera.canvas_height).toNat) :
    ∃ out, draw_mesh mesh transform lights camera bufs = some out ∧
      out.1.length = (camera.canvas_width * camera.canvas_height).toNat ∧
      out.2.length = (camera.canvas_width * camera.canvas_height).toNat := by
  unfold draw_mesh
  refine foldlM_option_inv
    (fun (s : List Color × List F) =>
      s.1.length = (camera.canvas_width * camera.canvas_height).toNat ∧
      s.2.length = (camera.canvas_width * camera.canvas_height).toNat) _ _ _
    ⟨hc, hd⟩ ?_
  intro s t hPs _
  obtain ⟨out, hsome, h1, h2⟩ :=
    drawTriangle_isSome mesh transform lights camera t s hWH hPs.1 hPs.2
  exact ⟨out, hsome, h1, h2⟩

/-- The depth-test discipline relating the buffers before and after a piece
of rasterization work: at every index either both buffers are untouched, or
the depth entry was replaced by a strictly smaller value (a value that won a
strict `<` comparison against the entry it replaced). -/
def depthGated (bufs out : List Color × List F) : Prop :=
  ∀ i : Nat,
    (out.2.get? i = bufs.2.get? i ∧ out.1.get? i = bufs.1.get? i) ∨
    (∃ a b, bufs.2.get? i = some a ∧ out.2.get? i = some b ∧ F.blt b a = true)

theorem depthGated_refl (s : List Color × List F) : depthGated s s :=
  fun _ => Or.inl ⟨rfl, rfl⟩

theorem depthGated_trans (s1 s2 s3 : List Color × List F)
    (h12 : depthGated s1 s2) (h23 : depthGated s2 s3) : depthGated s1 s3 := by
  intro i
  rcases h12 i with ⟨hd, hc⟩ | ⟨a, b, ha, hb, hab⟩
  · rcases h23 i with ⟨hd2, hc2⟩ | ⟨a2, b2, ha2, hb2, hab2⟩
    · exact Or.inl ⟨hd2.trans hd, hc2.trans hc⟩
    · refine Or.inr ⟨a2, b2, ?_, hb2, hab2⟩
      rw [← hd]; exact ha2
  · rcases h23 i with ⟨hd2, hc2⟩ | ⟨a2, b2, ha2, hb2, hab2⟩
    · refine Or.inr ⟨a, b, ha, ?_, hab⟩
      rw [hd2]; exact hb
    · have hba : b = a2 := by
        rw [hb] at ha2
        exact Option.some.inj ha2
      subst hba
      exact Or.inr ⟨a, b2, ha, hb2, F.blt_trans hab2 hab⟩

/-- `rasterPixel` respects the depth-test discipline: it only mutates its
one sample index, and only by installing a depth that won the strict test. -/
theorem rasterPixel_gated (mesh : Mesh) (t : Triangle)
    (ndc0 ndc1 ndc2 c0 c1 c2 : Vector3) (pv0 pv1 pv2 : ScreenCoordinate)
    (area : F) (W x y : Int) (bufs out : List Color × List F)
    (h : rasterPixel mesh t ndc0 ndc1 ndc2 c0 c1 c2 pv0 pv1 pv2 area W x y bufs =
      some out) : depthGated bufs out := by
  simp only [rasterPixel] at h
  split at h
  case isFalse =>
    cases Option.some.inj h
    exact depthGated_refl _
  case isTrue =>
    cases hget : listGetU? bufs.2 (buffIdx W x y) with
    | none => rw [hget] at h; simp at h
    | some dcur =>
      rw [hget, Option.some_bind] at h
      split at h
      case isFalse =>
        cases Option.some.inj h
        exact depthGated_refl _
      case isTrue hblt =>
        have hbounds : buffIdx W x y < bufs.2.length := by
          by_contra hno
          unfold listGetU? at hget
          rw [dif_neg hno] at hget
          exact Option.noConfusion hget
        have hdval : bufs.2.get? (buffIdx W x y) = some dcur := by
          unfold listGetU? at hget
          rw [dif_pos hbounds] at hget
          rw [List.get?_eq_get hbounds]
          exact congrArg some (Option.some.inj hget)
        rw [listSetU?_pos _ hbounds, Option.some_bind] at h
        cases hset1 : listSetU? bufs.1 (buffIdx W x y) _ with
        | none => rw [hset1] at h; simp at h
        | some pix2 =>
          rw [hset1, Option.some_bind] at h
          cases Option.some.inj h
          intro i
          by_cases hi : i = buffIdx W x y
          · subst hi
            refine Or.inr ⟨dcur, _, hdval, ?_, hblt⟩
            rw [List.get?_set_eq]
            rw [List.get?_eq_get hbounds]
            rfl
          · left
            constructor
            · exact List.get?_set_ne _ _ (fun hne => hi hne.symm)
            · obtain ⟨_, hpeq⟩ := listSetU?_some_elim hset1
              rw [hpeq]
              exact List.get?_set_ne _ _ (fun hne => hi hne.symm)

/-- `drawTriangle` respects the depth-test discipline (lifting
`rasterPixel_gated` through the two pixel loops). -/
theorem drawTriangle_gated (mesh : Mesh) (transform : Mat4) (lights : List Light)
    (camera : Camera) (t : Triangle) (bufs out : List Color × List F)
    (h : drawTriangle mesh transform lights camera t bufs = some out) :
    depthGated bufs out := by
  simp only [drawTriangle] at h
  split at h
  case isFalse =>
    cases Option.some.inj h
    exact depthGated_refl _
  case isTrue =>
    refine foldlM_option_rel depthGated depthGated_trans depthGated_refl _ _ _ _ ?_ h
    intro s xx out' _ hfx
    refine foldlM_option_rel depthGated depthGated_trans depthGated_refl _ _ _ _ ?_ hfx
    intro s2 yy out2 _ hfy
    exact rasterPixel_gated _ _ _ _ _ _ _ _ _ _ _ _ _ _ _ _ _ hfy

/-- C4: `draw_mesh` mutates a buffer entry only through the strict depth
test.  Part 1 (the per-sample write): a successful `rasterPixel` either
leaves the buffers untouched or — exactly when the sample is covered and
its recovered depth `z` wins the strict `<` against `depth_buf[buff_idx]`
(with `buff_idx` the `i32`-computed `((y*W)+x) as usize`) at test time —
sets that depth entry to `z` and that color entry to the shaded color, and
nothing else.  Part 2 (the whole call): any successful `draw_mesh` is
`depthGated`: at every index both buffers are unchanged, or the depth entry
holds a value that strictly decreased it, so entries for which no sample
passes retain their previous values. -/
theorem draw_mesh_mutates_only_on_depth_pass :
    (∀ (mesh : Mesh) (t : Triangle) (ndc0 ndc1 ndc2 c0 c1 c2 : Vector3)
        (pv0 pv1 pv2 : ScreenCoordinate) (area : F) (W x y : Int)
        (bufs out : List Color × List F),
      rasterPixel mesh t ndc0 ndc1 ndc2 c0 c1 c2 pv0 pv1 pv2 area W x y bufs = some out →
        out = bufs ∨
          (sampleCovered ndc0 ndc1 ndc2 pv0 pv1 pv2 x y = true ∧
            ∃ dcur, listGetU? bufs.2 (buffIdx W x y) = some dcur ∧
              F.blt (sampleDepth ndc0 ndc1 ndc2 pv0 pv1 pv2 area x y) dcur = true ∧
              out.2 = bufs.2.set (buffIdx W x y)
                (sampleDepth ndc0 ndc1 ndc2 pv0 pv1 pv2 area x y) ∧
              out.1 = bufs.1.set (buffIdx W x y)
                (sampleColor mesh t ndc0 ndc1 ndc2 c0 c1 c2 pv0 pv1 pv2 area x y))) ∧
    (∀ (mesh : Mesh) (transform : Mat4) (lights : List Light) (camera : Camera)
        (bufs out : List Color × List F),
      draw_mesh mesh transform lights camera bufs = some out → depthGated bufs out) := by
  constructor
  · intro mesh t ndc0 ndc1 ndc2 c0 c1 c2 pv0 pv1 pv2 area W x y bufs out h
    simp only [rasterPixel] at h
    split at h
    case isFalse => exact Or.inl (Option.some.inj h).symm
    case isTrue hcov =>
      cases hget : listGetU? bufs.2 (buffIdx W x y) with
      | none => rw [hget] at h; simp at h
      | some dcur =>
        rw [hget, Option.some_bind] at h
        split at h
        case isFalse => exact Or.inl (Option.some.inj h).symm
        case isTrue hblt =>
          have hbounds : buffIdx W x y < bufs.2.length := by
            by_contra hno
            unfold listGetU? at hget
            rw [dif_neg hno] at hget
            exact Option.noConfusion hget
          rw [listSetU?_pos _ hbounds, Option.some_bind] at h
          cases hset1 : listSetU? bufs.1 (buffIdx W x y)
              (sampleColor mesh t ndc0 ndc1 ndc2 c0 c1 c2 pv0 pv1 pv2 area x y) with
          | none => rw [hset1] at h; simp at h
          | some pix2 =>
            rw [hset1, Option.some_bind] at h
            obtain ⟨_, hpeq⟩ := listSetU?_some_elim hset1
            have hout := Option.some.inj h
            refine Or.inr ⟨hcov, dcur, rfl, hblt, ?_, ?_⟩
            · rw [← hout]
            · rw [← hout]
              exact hpeq
  · intro mesh transform lights camera bufs out h
    unfold draw_mesh at h
    exact foldlM_option_rel depthGated depthGated_trans depthGated_refl _ _ _ _
      (fun s t2 out' _ hft => drawTriangle_gated _ _ _ _ _ _ _ hft) h

/-! ## Concrete fixtures for the witnesses -/

/-- The triangle indexing vertices 0,1,2 with all normal and texture
indices 0. -/
def testTriangle : Triangle := ⟨0, 1, 2, 0, 0, 0, 0, 0, 0⟩

/-- A CCW triangle whose NDC corners map to the pixels (0,0), (2,0), (0,2)
of a 2×2 canvas, covering all four pixels at depth 1/2. -/
def testMesh : Mesh :=
  { verticies := [⟨F.fin (-1), F.fin 1, F.fin (1 / 2)⟩, ⟨F.fin 1, F.fin 1, F.fin (1 / 2)⟩,
      ⟨F.fin (-1), F.fin (-1), F.fin (1 / 2)⟩]
    face_indicies := [testTriangle]
    vertex_normals := [⟨F.fin 0, F.fin 0, F.fin 1⟩]
    vertex_texture_coords := []
    texture := none }

/-- A degenerate triangle: its NDC corners map to the collinear pixels
(0,0), (1,1), (2,2), so its signed pixel area is 0. -/
def degMesh : Mesh :=
  { verticies := [⟨F.fin (-1), F.fin 1, F.fin (1 / 2)⟩, ⟨F.fin 0, F.fin 0, F.fin (1 / 2)⟩,
      ⟨F.fin 1, F.fin (-1), F.fin (1 / 2)⟩]
    face_indicies := [testTriangle]
    vertex_normals := [⟨F.fin 0, F.fin 0, F.fin 1⟩]
    vertex_texture_coords := []
    texture := none }

/-- A 2×2 camera with identity view and projection, near 0, far 1. -/
def cam2 : Camera :=
  { near_plane := F.fin 0, far_plane := F.fin 1, canvas_width := 2, canvas_height := 2,
    view_mat := Mat4.identity, projection_mat := Mat4.identity }

/-- Fresh 2×2 buffers: gray pixels, depth 1000 everywhere. -/
def testBufs : List Color × List F :=
  (List.replicate 4 ⟨7, 7, 7⟩, List.replicate 4 (F.fin 1000))

/-- What rendering `testMesh` into `testBufs` produces: all four samples
covered at depth 1/2, lit black (no lights). -/
def testBufsOut : List Color × List F :=
  (List.replicate 4 ⟨0, 0, 0⟩, List.replicate 4 (F.fin (1 / 2)))

set_option maxRecDepth 100000 in
/-- C2 witness: the degenerate triangle of `degMesh` has zero area and its
`drawTriangle` pass returns the buffers unchanged. -/
theorem zero_area_triangle_writes_nothing_witness :
    triAreaInt cam2 Mat4.identity degMesh testTriangle = 0 ∧ testBufs = testBufs :=
  ⟨by with_unfolding_all decide,
   zero_area_triangle_writes_nothing degMesh Mat4.identity [] cam2 testTriangle
     testBufs testBufs (by with_unfolding_all decide) (by with_unfolding_all decide)⟩

set_option maxRecDepth 100000 in
/-- C2 counterexample: the zero-area triangle is NOT skipped and the
division by its zero area DOES occur.  With the degenerate triangle of
`degMesh` (pixel vertices (0,0), (1,1), (2,2); reciprocal depths 2), the
sample (1,1) passes the coverage test, the weight normalization divides the
zero edge weight by the zero area — an IEEE `0.0/0.0` producing NaN — and
the recovered sample depth is NaN.  (The NaN then fails the strict depth
test, which is the actual reason no pixel is written — not a skip.) -/
theorem zero_area_not_skipped_division_occurs :
    triAreaInt cam2 Mat4.identity degMesh testTriangle = 0 ∧
    sampleCovered ⟨F.fin (-1), F.fin 1, F.fin 2⟩ ⟨F.fin 0, F.fin 0, F.fin 2⟩
      ⟨F.fin 1, F.fin (-1), F.fin 2⟩ ⟨0, 0⟩ ⟨1, 1⟩ ⟨2, 2⟩ 1 1 = true ∧
    F.div (triangle_edge ⟨1, 1⟩ ⟨1, 1⟩ ⟨2, 2⟩)
      (F.fin ((triAreaInt cam2 Mat4.identity degMesh testTriangle : Int) : ℚ)) = F.nan ∧
    sampleDepth ⟨F.fin (-1), F.fin 1, F.fin 2⟩ ⟨F.fin 0, F.fin 0, F.fin 2⟩
      ⟨F.fin 1, F.fin (-1), F.fin 2⟩ ⟨0, 0⟩ ⟨1, 1⟩ ⟨2, 2⟩
      (F.fin ((triAreaInt cam2 Mat4.identity degMesh testTriangle : Int) : ℚ)) 1 1 =
      F.nan := by
  with_unfolding_all decide

set_option maxRecDepth 100000 in
/-- C4 witness: rendering `testMesh` into fresh buffers is depth-gated. -/
theorem draw_mesh_mutates_only_on_depth_pass_witness : depthGated testBufs testBufsOut :=
  draw_mesh_mutates_only_on_depth_pass.2 testMesh Mat4.identity [] cam2 testBufs
    testBufsOut (by with_unfolding_all decide)

/-- A 65536×65536 camera with identity view and projection, near 0, far 1. -/
def camBig : Camera :=
  { near_plane := F.fin 0, far_plane := F.fin 1, canvas_width := 65536,
    canvas_height := 65536, view_mat := Mat4.identity, projection_mat := Mat4.identity }

/-- A small on-screen triangle high up the 65536×65536 canvas: its NDC
vertices (exact binary fractions, hence exact `f32` values) map to the
pixel vertices (0, 40000), (100, 40000), (0, 40100). -/
def meshBig : Mesh :=
  { verticies := [⟨F.fin (-1), F.fin (-7232 / 32768), F.fin (1 / 2)⟩,
      ⟨F.fin (-32668 / 32768), F.fin (-7232 / 32768), F.fin (1 / 2)⟩,
      ⟨F.fin (-1), F.fin (-7332 / 32768), F.fin (1 / 2)⟩]
    face_indicies := [testTriangle]
    vertex_normals := [⟨F.fin 0, F.fin 0, F.fin 1⟩]
    vertex_texture_coords := []
    texture := none }

/-- Correctly sized buffers for the 65536×65536 canvas: `65536 * 65536`
entries each. -/
def bigBufs : List Color × List F :=
  (List.replicate (65536 * 65536) Color.default,
   List.replicate (65536 * 65536) (F.fin 1000))

set_option maxRecDepth 100000 in
/-- C5 (the claim fails): the buffer index `(y * canvas_width) + x` is
computed in `i32`.  On the 65536×65536 canvas `camBig` (both dimensions
positive) with the correctly sized buffers `bigBufs`, the on-screen
triangle of `meshBig` reaches its first sample at `(x, y) = (0, 40000)`,
whose true row-major index `40000 * 65536 + 0` is in range of the buffers —
but it exceeds `i32::MAX`, so the arithmetic wraps to `-1673527296` (a
debug build already panics on this overflow), whose `as usize`
reinterpretation exceeds the buffer length: the very first buffer read is
out of bounds and `draw_mesh` panics (`none`) instead of rendering. -/
theorem draw_mesh_buffer_index_overflow :
    (0 : Int) < camBig.canvas_width ∧ (0 : Int) < camBig.canvas_height ∧
    bigBufs.1.length = (camBig.canvas_width * camBig.canvas_height).toNat ∧
    bigBufs.2.length = (camBig.canvas_width * camBig.canvas_height).toNat ∧
    (0 : Int) ≤ 40000 * 65536 + 0 ∧ (40000 * 65536 + 0 : Int) < 65536 * 65536 ∧
    wrap32 (wrap32 ((40000 : Int) * 65536) + 0) = -1673527296 ∧
    (65536 * 65536 : Nat) ≤ buffIdx 65536 0 40000 ∧
    draw_mesh meshBig Mat4.identity [] camBig bigBufs = none := by
  have hlen1 : bigBufs.1.length = 65536 * 65536 := by
    show (List.replicate (65536 * 65536) Color.default).length = 65536 * 65536
    exact List.length_replicate _ _
  have hlen2 : bigBufs.2.length = 65536 * 65536 := by
    show (List.replicate (65536 * 65536) (F.fin 1000)).length = 65536 * 65536
    exact List.length_replicate _ _
  have htri : drawTriangle meshBig Mat4.identity [] camBig testTriangle bigBufs = none := by
    refine drawTriangle_none_of_first meshBig Mat4.identity [] camBig testTriangle bigBufs
      (by with_unfolding_all decide) (by with_unfolding_all decide)
      (by with_unfolding_all decide) ?_
    refine rasterPixel_none_of_oob _ _ _ _ _ _ _ _ _ _ _ _ _ _ _ _
      (by with_unfolding_all decide) ?_
    rw [hlen2]
    with_unfolding_all decide
  refine ⟨by with_unfolding_all decide, by with_unfolding_all decide,
    by rw [hlen1]; with_unfolding_all decide, by rw [hlen2]; with_unfolding_all decide,
    by decide, by decide, by with_unfolding_all decide, by with_unfolding_all decide, ?_⟩
  unfold draw_mesh
  rw [show meshBig.face_indicies = [testTriangle] from rfl]
  simp only [List.foldlM_cons, htri]
  rfl

theorem texIdx_bound {x y w h : Nat} (hx : x ≤ w - 1) (hy : y ≤ h - 1)
    (hw : 1 ≤ w) (hh : 1 ≤ h) : y * w + x < w * h := by
  have h1 : y * w ≤ (h - 1) * w := Nat.mul_le_mul_right w hy
  have h2 : (h - 1) * w + w = h * w := by
    have hs : h - 1 + 1 = h := Nat.succ_pred_eq_of_pos hh
    calc (h - 1) * w + w = (h - 1 + 1) * w := by ring
      _ = h * w := by rw [hs]
  have h3 : h * w = w * h := Nat.mul_comm h w
  omega

/-- C9: for every image with both dimensions at least 1 and a well-sized
pixel array, and every `(u, v)` — any finite value, infinity or NaN — the
clamped texel indices of `sample_bilinear` (all four reads) and of
`sample_nearest_neighbor` are in range: no sampler access is out of
bounds. -/
theorem samplers_read_in_bounds (img : Image) (u v : F)
    (hw : 1 ≤ img.width) (hh : 1 ≤ img.height)
    (hlen : img.data.length = img.width * img.height) :
    img.y_low_idx v * img.width + img.x_low_idx u < img.data.length ∧
    img.y_low_idx v * img.width + img.x_high_idx u < img.data.length ∧
    img.y_high_idx v * img.width + img.x_low_idx u < img.data.length ∧
    img.y_high_idx v * img.width + img.x_high_idx u < img.data.length ∧
    img.nearest_y_idx v * img.width + img.nearest_x_idx u < img.data.length := by
  rw [hlen]
  have hxl : img.x_low_idx u ≤ img.width - 1 := min_le_right _ _
  have hxh : img.x_high_idx u ≤ img.width - 1 := min_le_right _ _
  have hyl : img.y_low_idx v ≤ img.height - 1 := min_le_right _ _
  have hyh : img.y_high_idx v ≤ img.height - 1 := min_le_right _ _
  have hxn : img.nearest_x_idx u ≤ img.width - 1 := min_le_right _ _
  have hyn : img.nearest_y_idx v ≤ img.height - 1 := min_le_right _ _
  exact ⟨texIdx_bound hxl hyl hw hh, texIdx_bound hxh hyl hw hh,
    texIdx_bound hxl hyh hw hh, texIdx_bound hxh hyh hw hh,
    texIdx_bound hxn hyn hw hh⟩

/-- A 1×1 image for the C9 witness. -/
def testImage : Image := ⟨[⟨0, 0, 0⟩], 1, 1⟩

/-- C9 witness: the sampler indices are in range on the 1×1 image at
`u = v = NaN` (the cast sends NaN to 0 and the clamps cap the rest). -/
theorem samplers_read_in_bounds_witness :
    testImage.nearest_y_idx F.nan * testImage.width +
      testImage.nearest_x_idx F.nan < testImage.data.length :=
  (samplers_read_in_bounds testImage F.nan F.nan (by decide) (by decide)
    (by decide)).2.2.2.2

/-- C7: `save_to_ppm` puts `P3`, the width and the height together on the
FIRST line (`format!("P3 {} {}\n255\n", ...)`), while `load_ppm` demands a
first line equal to `"P3"` exactly; loading the saved 1×1 black image
therefore fails with the `not in P3 Format` error instead of returning the
image — the round-trip never succeeds. -/
theorem load_ppm_rejects_save_to_ppm_output :
    Image.save_to_ppm ⟨[⟨0, 0, 0⟩], 1, 1⟩ = ["P3 1 1", "255", "0 0 0"] ∧
    Image.load_ppm (Image.save_to_ppm ⟨[⟨0, 0, 0⟩], 1, 1⟩) =
      Except.error "PPM File was not in P3 Format" := by
  constructor
  · rfl
  · rfl

end Rasterboy
